import Mathlib

/-!
# VibeMap recommendation and clustering engine: a shallow embedding

This file embeds the core of the VibeMap repository (`src/recommender.py`,
`src/clustering.py`) in Lean 4 and proves or refutes the specification
claims about it.

Modelling conventions:
* a pandas DataFrame of tracks is a `List Track`; boolean masks are
  `List Bool`, row-aligned with the catalog;
* raw audio features and all exact numeric data are `ℚ` (the Python code
  computes in IEEE doubles; claims settled here depend only on exact
  comparisons, orderings and algebraic bounds, so exact rationals are a
  faithful model, with `Option` / `WithTop` capturing the NaN and `inf`
  sentinels the code manufactures explicitly);
* Python exceptions are `Except` errors: `ValueError`s raised for unknown
  mood/tempo/method names are `RecError.configurationError` carrying the
  list of valid names the message cites (the spec's `ConfigurationError`
  taxonomy), the `ValueError` for an unknown seed id is
  `RecError.notFoundError` (the spec's `NotFoundError`), and the scikit
  error for `n_neighbors > n_samples` is `RecError.dataError`;
* `np.argsort` (and the neighbour ordering of `NearestNeighbors.kneighbors`)
  is modelled as a stable sort: ties are returned in increasing index
  order, which is what the claims that touch ties are checked against.
-/

namespace VibeMap

/-- One catalog row of `cleaned_spotify_data.csv` as used by the engine:
an identity plus the 9 raw audio features (`src/recommender.py` lines
248-252). Descriptive columns not used by any claim are omitted. -/
structure Track where
  track_id : String
  valence : ℚ
  energy : ℚ
  danceability : ℚ
  tempo : ℚ
  acousticness : ℚ
  instrumentalness : ℚ
  liveness : ℚ
  speechiness : ℚ
  loudness : ℚ
deriving DecidableEq, Repr

instance : Inhabited Track :=
  ⟨⟨"", 0, 0, 0, 0, 0, 0, 0, 0, 0⟩⟩

/-- The feature columns a mood threshold can name. -/
inductive Feature where
  | valence | energy | danceability | tempo | acousticness
  | instrumentalness | liveness | speechiness | loudness
deriving DecidableEq, Repr

/-- Column access, `self.df[col]` for one row. -/
def Track.feat (t : Track) : Feature → ℚ
  | .valence => t.valence
  | .energy => t.energy
  | .danceability => t.danceability
  | .tempo => t.tempo
  | .acousticness => t.acousticness
  | .instrumentalness => t.instrumentalness
  | .liveness => t.liveness
  | .speechiness => t.speechiness
  | .loudness => t.loudness

/-- One entry of a `MOOD_FILTERS` rule: a dict key (feature name, with or
without the `_max` suffix) and its threshold value.  `isMax = true` models
a key ending in `_max` (a `<=` upper bound); otherwise it is a `>=` lower
bound (`_apply_mood_filter`, `src/recommender.py` lines 84-89). -/
structure Threshold where
  feature : Feature
  isMax : Bool
  value : ℚ
deriving DecidableEq, Repr

/-- The comparison `_apply_mood_filter` performs for one threshold on one
row: `df[col] <= value` for a `_max` key, `df[key] >= value` otherwise. -/
def Threshold.holdsFor (th : Threshold) (t : Track) : Bool :=
  if th.isMax then decide (t.feat th.feature ≤ th.value)
  else decide (th.value ≤ t.feat th.feature)

/-- The 8 fixed mood rules, `SongRecommender.MOOD_FILTERS`
(`src/recommender.py` lines 42-51), transcribed entry by entry. -/
def MOOD_FILTERS : List (String × List Threshold) :=
  [ ("happy", [⟨.valence, false, 0.6⟩, ⟨.energy, false, 0.5⟩])
  , ("sad", [⟨.valence, true, 0.4⟩, ⟨.energy, true, 0.4⟩])
  , ("energetic", [⟨.energy, false, 0.7⟩, ⟨.danceability, false, 0.5⟩])
  , ("calm", [⟨.energy, true, 0.4⟩, ⟨.acousticness, false, 0.5⟩])
  , ("dark", [⟨.valence, true, 0.3⟩, ⟨.energy, false, 0.6⟩])
  , ("romantic", [⟨.valence, false, 0.5⟩, ⟨.acousticness, false, 0.4⟩, ⟨.energy, true, 0.6⟩])
  , ("angry", [⟨.energy, false, 0.7⟩, ⟨.valence, true, 0.4⟩])
  , ("party", [⟨.danceability, false, 0.7⟩, ⟨.energy, false, 0.6⟩, ⟨.valence, false, 0.5⟩]) ]

/-- One tempo band of `TEMPO_FILTERS`: optional `tempo_min` (a `>=` bound)
and optional `tempo_max` (a `<=` bound). -/
structure TempoRule where
  tempo_min : Option ℚ
  tempo_max : Option ℚ
deriving DecidableEq, Repr

/-- The 3 fixed tempo bands, `SongRecommender.TEMPO_FILTERS`
(`src/recommender.py` lines 54-58). -/
def TEMPO_FILTERS : List (String × TempoRule) :=
  [ ("slow", ⟨none, some 100⟩)
  , ("medium", ⟨some 100, some 120⟩)
  , ("fast", ⟨some 120, none⟩) ]

/-- The valid mood names, `list(self.MOOD_FILTERS.keys())` as cited in the
unknown-mood error message. -/
def moodKeys : List String := MOOD_FILTERS.map Prod.fst

/-- The valid tempo names, `list(self.TEMPO_FILTERS.keys())`. -/
def tempoKeys : List String := TEMPO_FILTERS.map Prod.fst

/-- The valid similarity method names cited by the unknown-method error
message of `recommend_by_song`. -/
def methodKeys : List String := ["knn", "cosine", "euclidean"]

/-- Error taxonomy for the engine, following §7 of the spec.  The Python
code raises `ValueError` in every case; the constructor records which
taxon the raise site belongs to and the data its message carries. -/
inductive RecError where
  | configurationError (valid : List String) : RecError
  | notFoundError (missing_id : String) : RecError
  | dataError : RecError
deriving DecidableEq, Repr

/-- The boolean mask `_apply_mood_filter` builds for one row: it starts
from `True` and `&=`s one comparison per threshold, in rule order
(`src/recommender.py` lines 82-91). -/
def moodRowMask (ths : List Threshold) (t : Track) : Bool :=
  ths.foldl (fun m th => m && th.holdsFor t) true

/-- `_apply_mood_filter`: unknown mood raises
`ValueError(f"Unknown mood ... Available moods: (keys)")`, otherwise the
row-aligned mask is returned (`src/recommender.py` lines 73-91). -/
def apply_mood_filter (df : List Track) (mood : String) : Except RecError (List Bool) :=
  match MOOD_FILTERS.lookup mood with
  | none => .error (.configurationError moodKeys)
  | some ths => .ok (df.map (moodRowMask ths))

/-- The boolean mask `_apply_tempo_filter` builds for one row: `True`,
`&=` the `tempo_min` bound if present, `&=` the `tempo_max` bound if
present (`src/recommender.py` lines 102-109). -/
def tempoRowMask (r : TempoRule) (t : Track) : Bool :=
  ((match r.tempo_min with
    | some v => decide (v ≤ t.tempo)
    | none => true) : Bool) &&
  ((match r.tempo_max with
    | some v => decide (t.tempo ≤ v)
    | none => true) : Bool)

/-- `_apply_tempo_filter`: unknown tempo type raises
`ValueError(f"Unknown tempo type ... Available types: (keys)")`, otherwise
the row-aligned mask is returned (`src/recommender.py` lines 93-109). -/
def apply_tempo_filter (df : List Track) (tempo_type : String) : Except RecError (List Bool) :=
  match TEMPO_FILTERS.lookup tempo_type with
  | none => .error (.configurationError tempoKeys)
  | some r => .ok (df.map (tempoRowMask r))

/-- Pandas boolean-mask row selection `self.df[mask]`: keep the rows whose
mask entry is `True`, in catalog order. -/
def applyMask (df : List Track) (mask : List Bool) : List Track :=
  ((df.zip mask).filter (fun p => p.2)).map (fun p => p.1)

/-- `recommend_by_mood(mood, n_songs)`: mood mask, row selection,
`.head(n_songs)` (`src/recommender.py` lines 128-131). -/
def recommend_by_mood (df : List Track) (mood : String) (n_songs : Nat) :
    Except RecError (List Track) :=
  (apply_mood_filter df mood).map (fun mask => (applyMask df mask).take n_songs)

/-- `recommend_by_tempo(tempo_type, n_songs)` (`src/recommender.py`
lines 133-136). -/
def recommend_by_tempo (df : List Track) (tempo_type : String) (n_songs : Nat) :
    Except RecError (List Track) :=
  (apply_tempo_filter df tempo_type).map (fun mask => (applyMask df mask).take n_songs)

/-- `recommend_by_mood_and_tempo(mood, tempo, n_songs)`: both masks are
computed (mood first), combined with `&`, then selection and
`.head(n_songs)` (`src/recommender.py` lines 138-142). -/
def recommend_by_mood_and_tempo (df : List Track) (mood tempo : String) (n_songs : Nat) :
    Except RecError (List Track) :=
  (apply_mood_filter df mood).bind (fun mood_mask =>
    (apply_tempo_filter df tempo).map (fun tempo_mask =>
      (applyMask df (mood_mask.zipWith and tempo_mask)).take n_songs))

/-! ## Similarity index

All vector arithmetic is exact: the scaled feature matrix holds rational
vectors, dot products / squared norms / squared distances are rational.
Cosine similarity itself is irrational, so the real-valued
`cosSimR` below matches the source formula, while sorting uses the
rational `simProxy`, an order-isomorphic surrogate (for a fixed seed `u`,
`simProxy u v = sqNorm u * (s * |s|)` where `s` is the cosine similarity;
`x * |x|` is strictly monotone).  `simProxy_le_simProxy_iff` proves the
surrogate sorts exactly as the source's similarity values do. -/

/-- Dot product of two feature vectors. -/
def dotProd (u v : List ℚ) : ℚ :=
  (List.zipWith (· * ·) u v).sum

/-- Squared Euclidean norm. -/
def sqNorm (u : List ℚ) : ℚ :=
  dotProd u u

/-- Squared Euclidean distance, the square of what
`scipy.spatial.distance.cdist(..., metric='euclidean')` computes. -/
def sqDist (u v : List ℚ) : ℚ :=
  sqNorm (List.zipWith (· - ·) u v)

/-- Euclidean norm over ℝ. -/
noncomputable def normR (u : List ℚ) : ℝ :=
  Real.sqrt ((sqNorm u : ℚ) : ℝ)

/-- `sklearn.metrics.pairwise.cosine_similarity` of two rows: the vectors
are normalized (a zero norm is substituted by 1, so a zero vector has
similarity 0 with everything) and dotted. -/
noncomputable def cosSimR (u v : List ℚ) : ℝ :=
  if sqNorm u = 0 ∨ sqNorm v = 0 then 0
  else ((dotProd u v : ℚ) : ℝ) / (normR u * normR v)

/-- Cosine distance, the `metric='cosine'` of the KNN backend:
`1 - cosine_similarity`. -/
noncomputable def cosDistR (u v : List ℚ) : ℝ :=
  1 - cosSimR u v

/-- Rational order-surrogate for `cosSimR u v` with the seed `u` fixed:
`sign(dot) * dot^2 / sqNorm v` (0 when either norm is 0).  It equals
`sqNorm u * (s * |s|)` for `s = cosSimR u v`, so for a fixed seed it
induces exactly the similarity order (see `simProxy_le_simProxy_iff`). -/
def simProxy (u v : List ℚ) : ℚ :=
  if sqNorm u = 0 ∨ sqNorm v = 0 then 0
  else (if dotProd u v < 0 then -1 else 1) * (dotProd u v) ^ 2 / sqNorm v

/-- Rational order-surrogate for the sentinel `-1` that
`recommend_by_song`'s cosine branch writes over the seed's own
similarity: `-1 = cosSimR` corresponds to `sqNorm u * (-1 * |-1|) = -sqNorm u`
(and to any negative value when the seed vector is zero). -/
def sentinelProxy (u : List ℚ) : ℚ :=
  if sqNorm u = 0 then -1 else -sqNorm u

/-- The total order an argsort over a key function uses: ascending by key,
ties in increasing index order (the stable-sort model of `np.argsort` and
of the neighbour ordering returned by `kneighbors`). -/
def keyLe {β : Type} [LinearOrder β] (key : Nat → β) (i j : Nat) : Prop :=
  key i < key j ∨ (key i = key j ∧ i ≤ j)

instance {β : Type} [LinearOrder β] (key : Nat → β) : DecidableRel (keyLe key) := by
  intro i j
  unfold keyLe
  infer_instance

instance keyLe_isTotal {β : Type} [LinearOrder β] (key : Nat → β) :
    IsTotal Nat (keyLe key) := by
  constructor
  intro i j
  rcases lt_trichotomy (key i) (key j) with h | h | h
  · exact Or.inl (Or.inl h)
  · rcases Nat.le_total i j with hij | hij
    · exact Or.inl (Or.inr ⟨h, hij⟩)
    · exact Or.inr (Or.inr ⟨h.symm, hij⟩)
  · exact Or.inr (Or.inl h)

instance keyLe_isTrans {β : Type} [LinearOrder β] (key : Nat → β) :
    IsTrans Nat (keyLe key) := by
  constructor
  intro a b c hab hbc
  rcases hab with hab | ⟨hab, hab'⟩
  · rcases hbc with hbc | ⟨hbc, _⟩
    · exact Or.inl (hab.trans hbc)
    · exact Or.inl (hbc ▸ hab)
  · rcases hbc with hbc | ⟨hbc, hbc'⟩
    · exact Or.inl (hab ▸ hbc)
    · exact Or.inr ⟨hab.trans hbc, hab'.trans hbc'⟩

/-- `np.argsort` over the key values of indices `0, ..., N-1` (stable:
ties come out in increasing index order). -/
def argsortKey {β : Type} [LinearOrder β] (N : Nat) (key : Nat → β) : List Nat :=
  (List.range N).insertionSort (keyLe key)

/-- The engine state `recommend_by_song` reads: the catalog, the
configured result count, the scaled feature matrix (row-aligned with the
catalog) and the neighbour count the KNN index was built with
(`build_knn_model`, default 10). -/
structure Recommender where
  df : List Track
  n_recommendations : Nat
  feature_matrix_scaled : List (List ℚ)
  knn_n_neighbors : Nat
deriving DecidableEq, Repr

/-- Number of rows of the fitted matrix (`n_samples`). -/
def Recommender.N (rec : Recommender) : Nat :=
  rec.feature_matrix_scaled.length

/-- Row `j` of the scaled feature matrix. -/
def Recommender.vec (rec : Recommender) (j : Nat) : List ℚ :=
  rec.feature_matrix_scaled.getD j []

/-- Row `j` of the catalog, `self.df.iloc[j]`. -/
def Recommender.row (rec : Recommender) (j : Nat) : Track :=
  rec.df.getD j default

/-- Well-formed engine state: the scaled matrix is row-aligned with the
catalog, and (spec §3 Track invariant) track ids are unique. -/
def Recommender.WF (rec : Recommender) : Prop :=
  rec.feature_matrix_scaled.length = rec.df.length ∧
    (rec.df.map Track.track_id).Nodup

instance (rec : Recommender) : Decidable rec.WF := by
  unfold Recommender.WF
  infer_instance

/-- `build_knn_model(n_neighbors)`: refits the neighbour index on the
same scaled matrix with a new neighbour count
(`src/recommender.py` lines 115-122). -/
def build_knn_model (rec : Recommender) (n_neighbors : Nat) : Recommender :=
  { rec with knn_n_neighbors := n_neighbors }

/-- `self.df.index[self.df['track_id'] == song_id].tolist()` followed by
taking the first hit (`src/recommender.py` lines 158-161). -/
def findSeedIdx (rec : Recommender) (song_id : String) : Option Nat :=
  rec.df.findIdx? (fun t => t.track_id == song_id)

/-- Sort key of the KNN branch: ascending cosine distance is descending
cosine similarity, hence ascending negated `simProxy`. -/
def knnKey (rec : Recommender) (idx : Nat) (j : Nat) : ℚ :=
  -(simProxy (rec.vec idx) (rec.vec j))

/-- The neighbour ordering underlying `self.knn_model.kneighbors`:
all row indices by ascending cosine distance to the seed row. -/
def knnOrder (rec : Recommender) (idx : Nat) : List Nat :=
  argsortKey rec.N (knnKey rec idx)

/-- `kneighbors(song_vector)` index output: the `n_neighbors` nearest rows,
ascending by distance; scikit-learn raises when `n_neighbors > n_samples`
(modelled as `dataError`). -/
def kneighborsIdx (rec : Recommender) (idx : Nat) : Except RecError (List Nat) :=
  if rec.knn_n_neighbors ≤ rec.N then
    .ok ((knnOrder rec idx).take rec.knn_n_neighbors)
  else .error .dataError

/-- Sort key of the cosine branch: the similarity vector with the seed's
own entry overwritten by the sentinel (`sim_matrix[idx] = -1`,
`src/recommender.py` line 177), in proxy form. -/
def cosKey (rec : Recommender) (idx : Nat) (j : Nat) : ℚ :=
  if j = idx then sentinelProxy (rec.vec idx)
  else simProxy (rec.vec idx) (rec.vec j)

/-- `np.argsort(sim_matrix)[::-1][:n_recommendations]`
(`src/recommender.py` line 178). -/
def cosineTopIdx (rec : Recommender) (idx : Nat) : List Nat :=
  ((argsortKey rec.N (cosKey rec idx)).reverse).take rec.n_recommendations

/-- Sort key of the euclidean branch: squared distances with the seed's
own entry overwritten by `np.inf` (`dist_matrix[idx] = np.inf`,
`src/recommender.py` line 186).  Squaring preserves the sort order. -/
def euclKey (rec : Recommender) (idx : Nat) (j : Nat) : WithTop ℚ :=
  if j = idx then ⊤ else (sqDist (rec.vec idx) (rec.vec j) : WithTop ℚ)

/-- `np.argsort(dist_matrix)[:n_recommendations]`
(`src/recommender.py` line 187). -/
def euclTopIdx (rec : Recommender) (idx : Nat) : List Nat :=
  (argsortKey rec.N (euclKey rec idx)).take rec.n_recommendations

/-- `top_distances.max()` over the selected rows, in squared form.  The
fold is seeded with `0`, which no nonempty selection can beat downward
since every (squared) distance is nonnegative. -/
def euclMax2 (rec : Recommender) (idx : Nat) (sel : List Nat) : WithTop ℚ :=
  sel.foldl (fun a j => max a (euclKey rec idx j)) ((0 : ℚ) : WithTop ℚ)

/-- Index-level `recommend_by_song` (`src/recommender.py` lines 144-198):
seed lookup, branch on the method string, and the trailing
`result.head(n_recommendations)`.  Returns the selected row indices in
result order. -/
def recommendIdx (rec : Recommender) (song_id : String) (method : String) :
    Except RecError (List Nat) :=
  match findSeedIdx rec song_id with
  | none => .error (.notFoundError song_id)
  | some idx =>
    if method = "knn" then
      (kneighborsIdx rec idx).map
        (fun nb => ((nb.drop 1).take rec.n_recommendations))
    else if method = "cosine" then
      .ok ((cosineTopIdx rec idx).take rec.n_recommendations)
    else if method = "euclidean" then
      .ok ((euclTopIdx rec idx).take rec.n_recommendations)
    else .error (.configurationError methodKeys)

/-- Similarity score of the KNN branch:
`1 - distance / 2` (`src/recommender.py` line 172). -/
noncomputable def knnScore (rec : Recommender) (idx j : Nat) : Option ℝ :=
  some (1 - cosDistR (rec.vec idx) (rec.vec j) / 2)

/-- Similarity value the cosine branch reads back for a selected row: the
sentinel `-1` if the row is the seed itself, else its cosine similarity. -/
noncomputable def cosSimWithSentinel (rec : Recommender) (idx j : Nat) : ℝ :=
  if j = idx then -1 else cosSimR (rec.vec idx) (rec.vec j)

/-- Similarity score of the cosine branch: `(sim + 1) / 2`
(`src/recommender.py` line 181). -/
noncomputable def cosScore (rec : Recommender) (idx j : Nat) : Option ℝ :=
  some ((cosSimWithSentinel rec idx j + 1) / 2)

/-- Similarity score of the euclidean branch, `1 - d / max_dist` with
`max_dist` substituted by 1 when the maximum is 0
(`src/recommender.py` lines 190-191), on squared inputs.  IEEE float
behaviour at the `inf` sentinel is kept: `1 - finite/inf = 1` and
`1 - inf/inf = NaN`, with `none` standing for NaN.  (`M2` finite forces
every selected `d2` finite; the `untop' 0` default in that branch is
never reached.) -/
noncomputable def euclScore (M2 d2 : WithTop ℚ) : Option ℝ :=
  match M2, d2 with
  | ⊤, ⊤ => none
  | ⊤, some _ => some 1
  | some m, d2' =>
    some (1 - Real.sqrt ((d2'.untop' 0 : ℚ) : ℝ) /
      Real.sqrt (((if 0 < m then m else 1) : ℚ) : ℝ))

/-- `recommend_by_song(song_id, method)` (`src/recommender.py`
lines 144-198): the selected catalog rows in result order, each paired
with its `similarity_score` entry (`none` = NaN). -/
noncomputable def recommend_by_song (rec : Recommender) (song_id : String) (method : String) :
    Except RecError (List (Track × Option ℝ)) :=
  match findSeedIdx rec song_id with
  | none => .error (.notFoundError song_id)
  | some idx =>
    if method = "knn" then
      (kneighborsIdx rec idx).map
        (fun nb => (((nb.drop 1).take rec.n_recommendations)).map
          (fun j => (rec.row j, knnScore rec idx j)))
    else if method = "cosine" then
      .ok (((cosineTopIdx rec idx).take rec.n_recommendations).map
        (fun j => (rec.row j, cosScore rec idx j)))
    else if method = "euclidean" then
      .ok (((euclTopIdx rec idx).take rec.n_recommendations).map
        (fun j => (rec.row j, euclScore (euclMax2 rec idx (euclTopIdx rec idx)) (euclKey rec idx j))))
    else .error (.configurationError methodKeys)

/-! ## Feature normalizer (min-max normalization of tempo / loudness) -/

/-- `Series.min()` of a column (0 for an empty column, which pandas would
report as NaN; no claim touches the empty catalog). -/
def colMin (l : List ℚ) : ℚ :=
  match l with
  | [] => 0
  | x :: xs => xs.foldl min x

/-- `Series.max()` of a column. -/
def colMax (l : List ℚ) : ℚ :=
  match l with
  | [] => 0
  | x :: xs => xs.foldl max x

/-- The min-max normalization the source performs, column-wise:
`(x - min) / (max - min)` with NO zero-range guard
(`src/recommender.py` lines 259-266, `src/clustering.py` lines 73-74).
When the column is constant the divisor is `0` and so is the numerator;
IEEE `0.0 / 0.0` is NaN, modelled as `none`. -/
def minMaxNormalize (col : List ℚ) : List (Option ℚ) :=
  let mn := colMin col
  let mx := colMax col
  col.map (fun x => if mx - mn = 0 then none else some ((x - mn) / (mx - mn)))

/-- Modelled from the spec: the zero-range policy of §4.1 that the cited
code sites lack — "Division-by-zero on constant tempo/loudness columns
must degrade ... reference behavior: substitute denominator 1.0".  The
only difference from `minMaxNormalize` is the guarded divisor (the repo's
`src/backend/api_server.py` lines 67-74 implement exactly this guard). -/
def minMaxNormalizeSpecPolicy (col : List ℚ) : List ℚ :=
  let mn := colMin col
  let mx := colMax col
  let range := mx - mn
  col.map (fun x => (x - mn) / (if range = 0 then 1 else range))

/-! ## Cluster engine -/

/-- `range(2, max_clusters + 1)`, the fixed candidate list of
`find_optimal_clusters` (`src/clustering.py` line 104). -/
def K_range (max_clusters : Nat) : List Nat :=
  (List.range (max_clusters + 1)).drop 2

/-- Maximum of a rational list (`max(silhouette_scores)`); 0 on []. -/
def maxListQ (l : List ℚ) : ℚ :=
  match l with
  | [] => 0
  | x :: xs => xs.foldl max x

/-- `np.argmax`: the index of the first occurrence of the maximum. -/
def argmaxIdx (l : List ℚ) : Nat :=
  l.findIdx (fun x => decide (x = maxListQ l))

/-- The per-candidate report `find_optimal_clusters` accumulates and
plots: the candidate list and, aligned with it, the silhouette and
Davies-Bouldin scores of each candidate's fitted k-means. -/
structure ClusterSearchReport where
  ks : List Nat
  silhouettes : List ℚ
  davies_bouldin : List ℚ
deriving DecidableEq, Repr

/-- `MoodClusterer.find_optimal_clusters` (`src/clustering.py`
lines 89-153): fit every `k` in `range(2, max_clusters + 1)`, record both
quality scores, and return `K_range[np.argmax(silhouette_scores)]`.
`sil k` / `db k` abstract `silhouette_score(X, labels_k)` and
`davies_bouldin_score(X, labels_k)`, the scores of the k-means fitted at
`k` on the given matrix. -/
def find_optimal_clusters (sil db : Nat → ℚ) (max_clusters : Nat) :
    Nat × ClusterSearchReport :=
  let ks := K_range max_clusters
  let silhouette_scores := ks.map sil
  let davies_bouldin_scores := ks.map db
  (ks.getD (argmaxIdx silhouette_scores) 0,
    ⟨ks, silhouette_scores, davies_bouldin_scores⟩)

/-- The `MoodClusterer` state the cluster-count search reads. -/
structure MoodClusterer where
  n_clusters : Nat
  random_state : Nat
deriving DecidableEq, Repr

/-- The cluster count `MoodClusterer.fit` trains its final k-means with
(`src/clustering.py` lines 171-177): the optimal-k search result when
`auto_optimize` is set (called with the default `max_clusters = 10`),
the configured `n_clusters` otherwise. -/
def MoodClusterer.fitNClusters (c : MoodClusterer) (auto_optimize : Bool)
    (sil db : Nat → ℚ) : Nat :=
  if auto_optimize then (find_optimal_clusters sil db 10).1 else c.n_clusters

/-! ## Model loading (`MoodClusterer.load_model`)

Paths are lists of components; `MODEL_DIR` is the trusted absolute model
directory.  `pathResolve` is lexical resolution (`Path.resolve()` without
symlinks): `..` pops a component, `.` disappears. -/

/-- The trusted model directory (`MODEL_DIR`), as an absolute component
list (the filesystem root prefix is elided). -/
def MODEL_DIR : List String :=
  ["VibeMap", "models"]

/-- `PurePath(filename).name`: the final component, `""` for an empty
path. -/
def pathName (p : List String) : String :=
  (p.getLast?).getD ""

/-- Lexical `Path.resolve()`: normalize `..` and `.` components. -/
def pathResolve (p : List String) : List String :=
  p.foldl (fun acc c => if c = ".." then acc.dropLast else if c = "." then acc else acc ++ [c]) []

/-- `MoodClusterer.load_model` (`src/clustering.py` lines 356-372):
`safe_name = Path(filename).name`; `model_path = (MODEL_DIR / safe_name).resolve()`;
raise `ValueError("Invalid model filename")` unless
`model_path.is_relative_to(MODEL_DIR.resolve())`; only then is
`joblib.load(model_path)` reached — modelled by returning the path that
gets read. -/
def load_model (filename : List String) : Except String (List String) :=
  let safe_name := pathName filename
  let model_path := pathResolve (MODEL_DIR ++ [safe_name])
  if (pathResolve MODEL_DIR).isPrefixOf model_path then
    .ok model_path
  else .error "Invalid model filename"

instance {ε α : Type} [DecidableEq ε] [DecidableEq α] : DecidableEq (Except ε α)
  | .error e, .error f =>
    decidable_of_iff (e = f) ⟨fun h => by rw [h], fun h => by injection h⟩
  | .error _, .ok _ => isFalse (fun h => by injection h)
  | .ok _, .error _ => isFalse (fun h => by injection h)
  | .ok x, .ok y =>
    decidable_of_iff (x = y) ⟨fun h => by rw [h], fun h => by injection h⟩

/-! ## Concrete data

Small catalogs and engine states used to run the proved claims on
explicit inputs, and as the explicit inputs of the refuting theorems. -/

/-- A happy/party track (all comparisons land strictly inside the
thresholds). -/
def trackA : Track := ⟨"a", 1, 1, 1, 110, 0, 0, 0, 0, -5⟩

/-- A sad/calm slow track. -/
def trackB : Track := ⟨"b", 0, 0, 0, 90, 1, 0, 0, 0, -9⟩

/-- A fast non-acoustic track. -/
def trackC : Track := ⟨"c", 1, 0, 0, 130, 0, 0, 0, 0, -7⟩

/-- A three-track catalog. -/
def dfW : List Track := [trackA, trackB, trackC]

/-- Engine state over `dfW` with orthogonal scaled vectors, two
recommendations and a neighbour index built with `n_neighbors = 3`. -/
def recW : Recommender :=
  { df := dfW
  , n_recommendations := 2
  , feature_matrix_scaled := [[1, 0], [0, 1], [0, -1]]
  , knn_n_neighbors := 3 }

/-- Two-track engine state with the default configuration
(`n_recommendations = 5`, `build_knn_model(n_neighbors=10)`): a catalog
smaller than the requested result count. -/
def recSmall : Recommender :=
  { df := [trackA, trackB]
  , n_recommendations := 5
  , feature_matrix_scaled := [[1, 0], [0, 1]]
  , knn_n_neighbors := 10 }

/-- Three-track engine state with the default configuration, still
smaller than `n_recommendations = 5`. -/
def recSmall3 : Recommender :=
  { df := dfW
  , n_recommendations := 5
  , feature_matrix_scaled := [[1, 0], [0, 1], [0, -1]]
  , knn_n_neighbors := 10 }

/-- Engine state over `dfW` whose neighbour index was built with
`n_neighbors = 2` while two recommendations are requested. -/
def recK2 : Recommender :=
  { df := dfW
  , n_recommendations := 2
  , feature_matrix_scaled := [[1, 0], [0, 1], [0, -1]]
  , knn_n_neighbors := 2 }

/-! ## Filter-engine lemmas -/

theorem ratSci (m e : Nat) : (OfScientific.ofScientific m true e : ℚ) = mkRat m (10 ^ e) :=
  Rat.ofScientific_true_def

theorem foldl_and_eq (f : α → Bool) (l : List α) (b : Bool) :
    l.foldl (fun m x => m && f x) b = (b && l.all f) := by
  induction l generalizing b with
  | nil => simp
  | cons x xs ih => simp [List.foldl_cons, ih, Bool.and_assoc]

theorem moodRowMask_eq_all (ths : List Threshold) (t : Track) :
    moodRowMask ths t = ths.all (fun th => th.holdsFor t) := by
  simp [moodRowMask, foldl_and_eq]

theorem applyMask_map (df : List Track) (f : Track → Bool) :
    applyMask df (df.map f) = df.filter f := by
  induction df with
  | nil => rfl
  | cons t ts ih =>
    by_cases h : f t <;>
      simp [applyMask, List.filter_cons, h] at ih ⊢ <;> exact ih

theorem zipWith_and_map (df : List Track) (f g : Track → Bool) :
    (df.map f).zipWith and (df.map g) = df.map (fun t => f t && g t) := by
  induction df with
  | nil => rfl
  | cons t ts ih => simp [ih, and]

theorem recommend_by_mood_eq {mood : String} {ths : List Threshold}
    (df : List Track) (n : Nat) (h : MOOD_FILTERS.lookup mood = some ths) :
    recommend_by_mood df mood n = .ok ((df.filter (moodRowMask ths)).take n) := by
  simp [recommend_by_mood, apply_mood_filter, h, Except.map, applyMask_map]

theorem recommend_by_tempo_eq {tempo : String} {r : TempoRule}
    (df : List Track) (n : Nat) (h : TEMPO_FILTERS.lookup tempo = some r) :
    recommend_by_tempo df tempo n = .ok ((df.filter (tempoRowMask r)).take n) := by
  simp [recommend_by_tempo, apply_tempo_filter, h, Except.map, applyMask_map]

theorem recommend_by_mood_and_tempo_eq {mood tempo : String} {ths : List Threshold}
    {r : TempoRule} (df : List Track) (n : Nat)
    (hm : MOOD_FILTERS.lookup mood = some ths) (ht : TEMPO_FILTERS.lookup tempo = some r) :
    recommend_by_mood_and_tempo df mood tempo n =
      .ok ((df.filter (fun t => moodRowMask ths t && tempoRowMask r t)).take n) := by
  simp [recommend_by_mood_and_tempo, apply_mood_filter, apply_tempo_filter, hm, ht,
    Except.bind, Except.map, Except.pure, zipWith_and_map, applyMask_map]

theorem mem_filter_take {p : Track → Bool} {df res : List Track} {n : Nat}
    (h : res = (df.filter p).take n) {t : Track} (ht : t ∈ res) : p t = true := by
  subst h
  exact (List.mem_filter.mp (List.take_subset _ _ ht)).2

/-! ## Argsort lemmas -/

theorem argsortKey_perm {β : Type} [LinearOrder β] (N : Nat) (key : Nat → β) :
    (argsortKey N key).Perm (List.range N) :=
  List.perm_insertionSort _ _

theorem argsortKey_length {β : Type} [LinearOrder β] (N : Nat) (key : Nat → β) :
    (argsortKey N key).length = N := by
  simpa using (argsortKey_perm N key).length_eq

theorem argsortKey_nodup {β : Type} [LinearOrder β] (N : Nat) (key : Nat → β) :
    (argsortKey N key).Nodup :=
  ((argsortKey_perm N key).nodup_iff).mpr (List.nodup_range N)

theorem argsortKey_mem {β : Type} [LinearOrder β] {N : Nat} {key : Nat → β} {j : Nat} :
    j ∈ argsortKey N key ↔ j < N := by
  rw [(argsortKey_perm N key).mem_iff, List.mem_range]

theorem argsortKey_sorted {β : Type} [LinearOrder β] (N : Nat) (key : Nat → β) :
    List.Sorted (keyLe key) (argsortKey N key) :=
  List.sorted_insertionSort _ _

theorem sorted_cons_of_strict_min {β : Type} [LinearOrder β] {key : Nat → β}
    {l : List Nat} {i : Nat} (hs : List.Sorted (keyLe key) l) (hi : i ∈ l)
    (hmin : ∀ j ∈ l, j ≠ i → key i < key j) :
    ∃ t, l = i :: t := by
  cases l with
  | nil => cases hi
  | cons a t =>
    by_cases hai : a = i
    · exact ⟨t, by rw [hai]⟩
    · exfalso
      have hka : key i < key a := hmin a (List.mem_cons_self a t) hai
      have hit : i ∈ t := by
        rcases List.mem_cons.mp hi with h | h
        · exact absurd h.symm hai
        · exact h
      have hrel : keyLe key a i := (List.sorted_cons.mp hs).1 i hit
      rcases hrel with h | ⟨h, _⟩
      · exact absurd hka (lt_asymm h)
      · rw [h] at hka
        exact lt_irrefl _ hka

theorem not_mem_reverse_take_of_count {β : Type} [LinearOrder β] {key : Nat → β}
    {l : List Nat} {i n : Nat} (hs : List.Sorted (keyLe key) l) (hnd : l.Nodup)
    (hi : i ∈ l) (hcnt : n ≤ (l.filter (fun j => decide (key i < key j))).length) :
    i ∉ l.reverse.take n := by
  obtain ⟨s, t, rfl⟩ := List.append_of_mem hi
  have hst := List.pairwise_append.mp hs
  have hsub : (s ++ i :: t).filter (fun j => decide (key i < key j)) ⊆ t := by
    intro j hj
    have hjl := List.mem_filter.mp hj
    have hkey : key i < key j := by simpa using hjl.2
    rcases List.mem_append.mp hjl.1 with hjs | hjit
    · exfalso
      have hrel : keyLe key j i := hst.2.2 j hjs i (List.mem_cons_self i t)
      rcases hrel with h | ⟨h, _⟩
      · exact absurd hkey (lt_asymm h)
      · rw [h] at hkey
        exact lt_irrefl _ hkey
    · rcases List.mem_cons.mp hjit with h | h
      · rw [h] at hkey
        exact absurd hkey (lt_irrefl _)
      · exact h
  have hlen : ((s ++ i :: t).filter (fun j => decide (key i < key j))).length ≤ t.length :=
    (List.subperm_of_subset (hnd.filter _) hsub).length_le
  have hnt : n ≤ t.length := hcnt.trans hlen
  intro hmem
  have hrev : (s ++ i :: t).reverse = (t.reverse ++ [i]) ++ s.reverse := by
    simp
  rw [hrev] at hmem
  rw [List.take_append_eq_append_take] at hmem
  rcases List.mem_append.mp hmem with hmem | hmem
  · rw [List.take_append_eq_append_take] at hmem
    rcases List.mem_append.mp hmem with hmem | hmem
    · have hit : i ∈ t := List.mem_reverse.mp (List.take_subset _ _ hmem)
      have : i ∉ t := by
        have hnd2 : (i :: t).Nodup := ((List.sublist_append_right s (i :: t)).nodup hnd)
        exact (List.nodup_cons.mp hnd2).1
      exact this hit
    · have : n - t.reverse.length = 0 := by
        simp only [List.length_reverse]
        omega
      rw [this] at hmem
      simp at hmem
  · have : n - (t.reverse ++ [i]).length = 0 := by
      simp only [List.length_append, List.length_reverse, List.length_cons, List.length_nil]
      omega
    rw [this] at hmem
    simp at hmem

theorem not_mem_take_of_strict_max {β : Type} [LinearOrder β] {key : Nat → β}
    {l : List Nat} {i n : Nat} (hs : List.Sorted (keyLe key) l) (hnd : l.Nodup)
    (hi : i ∈ l) (hmax : ∀ j ∈ l, j ≠ i → key j < key i) (hn : n ≤ l.length - 1) :
    i ∉ l.take n := by
  obtain ⟨s, t, rfl⟩ := List.append_of_mem hi
  have hnd2 : (i :: t).Nodup := (List.sublist_append_right s (i :: t)).nodup hnd
  have ht : t = [] := by
    cases t with
    | nil => rfl
    | cons b tb =>
      exfalso
      have hbt : b ∈ i :: b :: tb := List.mem_cons_of_mem i (List.mem_cons_self b tb)
      have hbi : b ≠ i := by
        intro h
        exact (List.nodup_cons.mp hnd2).1 (h ▸ List.mem_cons_self b tb)
      have hkb : key b < key i :=
        hmax b (List.mem_append.mpr (Or.inr hbt)) hbi
      have hrel : keyLe key i b := by
        have := (List.pairwise_append.mp hs).2.1
        exact (List.sorted_cons.mp this).1 b (List.mem_cons_self b tb)
      rcases hrel with h | ⟨h, _⟩
      · exact absurd hkb (lt_asymm h)
      · rw [h] at hkb
        exact lt_irrefl _ hkb
  subst ht
  have hns : n ≤ s.length := by
    have := hn
    simp only [List.length_append, List.length_cons, List.length_nil] at this
    omega
  intro hmem
  rw [List.take_append_eq_append_take] at hmem
  rcases List.mem_append.mp hmem with hmem | hmem
  · have his : i ∈ s := List.take_subset _ _ hmem
    have hdisj := (List.nodup_append.mp hnd).2.2
    exact hdisj his (List.mem_cons_self i [])
  · have : n - s.length = 0 := by omega
    rw [this] at hmem
    simp at hmem

/-! ## Seed lookup and catalog-row lemmas -/

theorem findSeedIdx_facts {rec : Recommender} {song_id : String} {idx : Nat}
    (h : findSeedIdx rec song_id = some idx) :
    idx < rec.df.length ∧ (rec.row idx).track_id = song_id := by
  unfold findSeedIdx at h
  obtain ⟨hlt, hfi⟩ := List.findIdx?_eq_some_iff_findIdx_eq.mp h
  refine ⟨hlt, ?_⟩
  have hw : rec.df.findIdx (fun t => t.track_id == song_id) < rec.df.length := by
    rw [hfi]
    exact hlt
  have hp := @List.findIdx_getElem _ (fun t => t.track_id == song_id) rec.df hw
  rw [Recommender.row, List.getD_eq_getElem _ _ hlt]
  simp only at hp
  have hgg : rec.df[rec.df.findIdx (fun t => t.track_id == song_id)] = rec.df[idx] := by
    congr 1
  rw [hgg] at hp
  exact eq_of_beq hp

theorem row_id_ne {rec : Recommender} (hnd : (rec.df.map Track.track_id).Nodup)
    {i j : Nat} (hi : i < rec.df.length) (hj : j < rec.df.length) (hij : i ≠ j) :
    (rec.row i).track_id ≠ (rec.row j).track_id := by
  intro heq
  rw [Recommender.row, Recommender.row, List.getD_eq_getElem _ _ hi,
    List.getD_eq_getElem _ _ hj] at heq
  have hi' : i < (rec.df.map Track.track_id).length := by
    rw [List.length_map]; exact hi
  have hj' : j < (rec.df.map Track.track_id).length := by
    rw [List.length_map]; exact hj
  have hmap : (rec.df.map Track.track_id)[i] = (rec.df.map Track.track_id)[j] := by
    rw [List.getElem_map, List.getElem_map]
    exact heq
  exact hij (hnd.getElem_inj_iff.mp hmap)

/-! ## Claims C4-C7: the filter engine and the error taxonomy -/

/-- C4: for each of the 8 fixed mood rules, every row returned by
`recommend_by_mood(mood, n)` satisfies all of that rule's threshold
comparisons — each `>=` lower bound and `<=` upper bound on the named
features. -/
theorem claim_C4 (df : List Track) (mood : String) (ths : List Threshold)
    (n : Nat) (res : List Track)
    (hm : MOOD_FILTERS.lookup mood = some ths)
    (hres : recommend_by_mood df mood n = .ok res) :
    ∀ t ∈ res, ∀ th ∈ ths,
      (th.isMax = true → t.feat th.feature ≤ th.value) ∧
      (th.isMax = false → th.value ≤ t.feat th.feature) := by
  have heq := recommend_by_mood_eq df n hm
  rw [hres] at heq
  have hres' : res = (df.filter (moodRowMask ths)).take n := Except.ok.inj heq
  intro t ht th hth
  have hmask : moodRowMask ths t = true := mem_filter_take hres' ht
  rw [moodRowMask_eq_all] at hmask
  have hhold := List.all_eq_true.mp hmask th hth
  constructor
  · intro hmax
    simp [Threshold.holdsFor, hmax] at hhold
    exact hhold
  · intro hmin
    simp [Threshold.holdsFor, hmin] at hhold
    exact hhold

/-- Witness for C4 at an explicit input: the "happy" rule on `dfW`. -/
theorem claim_C4_witness :
    MOOD_FILTERS.lookup "happy" = some [⟨.valence, false, 0.6⟩, ⟨.energy, false, 0.5⟩] ∧
    recommend_by_mood dfW "happy" 5 = .ok [trackA] ∧
    ∀ t ∈ [trackA], ∀ th ∈ [(⟨.valence, false, 0.6⟩ : Threshold), ⟨.energy, false, 0.5⟩],
      (th.isMax = true → t.feat th.feature ≤ th.value) ∧
      (th.isMax = false → th.value ≤ t.feat th.feature) := by
  have h1 : MOOD_FILTERS.lookup "happy" =
      some [⟨.valence, false, 0.6⟩, ⟨.energy, false, 0.5⟩] := by
    simp only [MOOD_FILTERS, ratSci]
    decide
  have h2 : recommend_by_mood dfW "happy" 5 = .ok [trackA] := by
    simp only [recommend_by_mood, apply_mood_filter, moodRowMask, Threshold.holdsFor,
      applyMask, dfW, trackA, trackB, trackC, MOOD_FILTERS, ratSci]
    decide
  exact ⟨h1, h2, claim_C4 dfW "happy" _ 5 [trackA] h1 h2⟩

/-- C5: `recommend_by_tempo` rows respect the band bounds, and the bands
overlap at the boundaries: tempo exactly 100 satisfies both the "slow"
and "medium" masks, tempo exactly 120 both "medium" and "fast". -/
theorem claim_C5 (df : List Track) (n : Nat) :
    (∀ res, recommend_by_tempo df "slow" n = .ok res → ∀ t ∈ res, t.tempo ≤ 100) ∧
    (∀ res, recommend_by_tempo df "fast" n = .ok res → ∀ t ∈ res, 120 ≤ t.tempo) ∧
    (∀ t : Track, t.tempo = 100 → ∀ rs rm : TempoRule,
      TEMPO_FILTERS.lookup "slow" = some rs → TEMPO_FILTERS.lookup "medium" = some rm →
      tempoRowMask rs t = true ∧ tempoRowMask rm t = true) ∧
    (∀ t : Track, t.tempo = 120 → ∀ rm rf : TempoRule,
      TEMPO_FILTERS.lookup "medium" = some rm → TEMPO_FILTERS.lookup "fast" = some rf →
      tempoRowMask rm t = true ∧ tempoRowMask rf t = true) := by
  have hs : TEMPO_FILTERS.lookup "slow" = some ⟨none, some 100⟩ := by decide
  have hm : TEMPO_FILTERS.lookup "medium" = some ⟨some 100, some 120⟩ := by decide
  have hf : TEMPO_FILTERS.lookup "fast" = some ⟨some 120, none⟩ := by decide
  refine ⟨?_, ?_, ?_, ?_⟩
  · intro res hres t ht
    have heq := recommend_by_tempo_eq df n hs
    rw [hres] at heq
    have hmask := mem_filter_take (Except.ok.inj heq) ht
    simp [tempoRowMask] at hmask
    exact hmask
  · intro res hres t ht
    have heq := recommend_by_tempo_eq df n hf
    rw [hres] at heq
    have hmask := mem_filter_take (Except.ok.inj heq) ht
    simp [tempoRowMask] at hmask
    exact hmask
  · intro t h100 rs rm hrs hrm
    rw [hs] at hrs
    rw [hm] at hrm
    rw [← Option.some.inj hrs, ← Option.some.inj hrm]
    constructor <;> norm_num [tempoRowMask, h100]
  · intro t h120 rm rf hrm hrf
    rw [hm] at hrm
    rw [hf] at hrf
    rw [← Option.some.inj hrm, ← Option.some.inj hrf]
    constructor <;> norm_num [tempoRowMask, h120]

/-- Witness for C5 at an explicit input: `dfW` with `n = 5`; `trackB`
(tempo 90) is the one "slow" row, `trackC` (tempo 130) the one "fast"
row. -/
theorem claim_C5_witness :
    (∀ res, recommend_by_tempo dfW "slow" 5 = .ok res → ∀ t ∈ res, t.tempo ≤ 100) ∧
    (∀ res, recommend_by_tempo dfW "fast" 5 = .ok res → ∀ t ∈ res, 120 ≤ t.tempo) ∧
    recommend_by_tempo dfW "slow" 5 = .ok [trackB] ∧
    recommend_by_tempo dfW "fast" 5 = .ok [trackC] := by
  refine ⟨(claim_C5 dfW 5).1, (claim_C5 dfW 5).2.1, ?_, ?_⟩ <;> decide

/-- C6: the three filter-based modes return exactly the first `n`
mask-matching rows in catalog order (the combined mode's mask being the
logical AND of the mood and tempo masks), every result is a sublist of
the catalog (no re-ranking), and a valid pair of rule names never
produces an error — in particular an empty selection is returned as an
empty result. -/
theorem claim_C6 (df : List Track) (mood tempo : String) (ths : List Threshold)
    (r : TempoRule) (n : Nat)
    (hm : MOOD_FILTERS.lookup mood = some ths) (ht : TEMPO_FILTERS.lookup tempo = some r) :
    recommend_by_mood df mood n = .ok ((df.filter (moodRowMask ths)).take n) ∧
    recommend_by_tempo df tempo n = .ok ((df.filter (tempoRowMask r)).take n) ∧
    recommend_by_mood_and_tempo df mood tempo n =
      .ok ((df.filter (fun t => moodRowMask ths t && tempoRowMask r t)).take n) ∧
    (∀ res, recommend_by_mood_and_tempo df mood tempo n = .ok res → res.Sublist df) := by
  refine ⟨recommend_by_mood_eq df n hm, recommend_by_tempo_eq df n ht,
    recommend_by_mood_and_tempo_eq df n hm ht, ?_⟩
  intro res hres
  have heq := recommend_by_mood_and_tempo_eq df n hm ht
  rw [hres] at heq
  rw [Except.ok.inj heq]
  exact (List.take_sublist _ _).trans (List.filter_sublist df)

/-- Witness for C6 at an explicit input: the very restrictive
"calm" + "fast" combination on `dfW` selects nothing, and the empty
result is returned as `ok []`, not as an error. -/
theorem claim_C6_witness :
    MOOD_FILTERS.lookup "calm" = some [⟨.energy, true, 0.4⟩, ⟨.acousticness, false, 0.5⟩] ∧
    TEMPO_FILTERS.lookup "fast" = some ⟨some 120, none⟩ ∧
    recommend_by_mood_and_tempo dfW "calm" "fast" 5 = .ok [] ∧
    recommend_by_mood_and_tempo dfW "calm" "fast" 5 =
      .ok ((dfW.filter (fun t => moodRowMask [⟨.energy, true, 0.4⟩, ⟨.acousticness, false, 0.5⟩] t &&
        tempoRowMask ⟨some 120, none⟩ t)).take 5) := by
  have h1 : MOOD_FILTERS.lookup "calm" =
      some [⟨.energy, true, 0.4⟩, ⟨.acousticness, false, 0.5⟩] := by
    simp only [MOOD_FILTERS, ratSci]
    decide
  have h2 : TEMPO_FILTERS.lookup "fast" = some ⟨some 120, none⟩ := by decide
  have h3 := (claim_C6 dfW "calm" "fast" _ _ 5 h1 h2).2.2.1
  refine ⟨h1, h2, ?_, h3⟩
  rw [h3]
  simp only [dfW, trackA, trackB, trackC, moodRowMask, tempoRowMask, Threshold.holdsFor, ratSci]
  decide

/-- C7: unknown mood/tempo rule names make the filter queries fail with
the configuration error naming the valid rule set; an unknown seed id
makes `recommend_by_song` fail with the not-found error; an unknown
method name (with a valid seed) fails with the configuration error naming
the valid methods.  In each case the `Except` result is the error itself:
the error propagates to the immediate caller and no partial result
accompanies it. -/
theorem claim_C7 (df : List Track) (rec : Recommender)
    (mood tempo method song_id : String) (n : Nat) :
    (MOOD_FILTERS.lookup mood = none →
      recommend_by_mood df mood n = .error (.configurationError moodKeys) ∧
      recommend_by_mood_and_tempo df mood tempo n = .error (.configurationError moodKeys)) ∧
    (TEMPO_FILTERS.lookup tempo = none →
      recommend_by_tempo df tempo n = .error (.configurationError tempoKeys)) ∧
    (MOOD_FILTERS.lookup mood ≠ none → TEMPO_FILTERS.lookup tempo = none →
      recommend_by_mood_and_tempo df mood tempo n = .error (.configurationError tempoKeys)) ∧
    (findSeedIdx rec song_id = none →
      recommend_by_song rec song_id method = .error (.notFoundError song_id)) ∧
    (findSeedIdx rec song_id ≠ none → method ∉ methodKeys →
      recommend_by_song rec song_id method = .error (.configurationError methodKeys)) := by
  refine ⟨?_, ?_, ?_, ?_, ?_⟩
  · intro h
    constructor
    · simp [recommend_by_mood, apply_mood_filter, h, Except.map]
    · simp [recommend_by_mood_and_tempo, apply_mood_filter, h, Except.bind]
  · intro h
    simp [recommend_by_tempo, apply_tempo_filter, h, Except.map]
  · intro hm ht
    obtain ⟨ths, hths⟩ := Option.ne_none_iff_exists'.mp hm
    simp [recommend_by_mood_and_tempo, apply_mood_filter, apply_tempo_filter, hths, ht,
      Except.bind, Except.map]
  · intro h
    simp [recommend_by_song, h]
  · intro hsome hmeth
    obtain ⟨idx, hidx⟩ := Option.ne_none_iff_exists'.mp hsome
    simp only [methodKeys, List.mem_cons, List.not_mem_nil, or_false, not_or] at hmeth
    obtain ⟨h1, h2, h3⟩ := hmeth
    simp [recommend_by_song, hidx, h1, h2, h3]

/-- Witness for C7 at explicit inputs: the unknown names "disco",
"hyper", "manhattan" and the absent seed id "zzz" on `dfW` / `recW`. -/
theorem claim_C7_witness :
    MOOD_FILTERS.lookup "disco" = none ∧
    TEMPO_FILTERS.lookup "hyper" = none ∧
    findSeedIdx recW "zzz" = none ∧
    findSeedIdx recW "a" ≠ none ∧
    "manhattan" ∉ methodKeys ∧
    recommend_by_mood dfW "disco" 5 = .error (.configurationError moodKeys) ∧
    recommend_by_tempo dfW "hyper" 5 = .error (.configurationError tempoKeys) ∧
    recommend_by_song recW "zzz" "knn" = .error (.notFoundError "zzz") ∧
    recommend_by_song recW "a" "manhattan" = .error (.configurationError methodKeys) := by
  have hd : MOOD_FILTERS.lookup "disco" = none := by decide
  have hh : TEMPO_FILTERS.lookup "hyper" = none := by decide
  have hz : findSeedIdx recW "zzz" = none := by decide
  have ha : findSeedIdx recW "a" ≠ none := by decide
  have hmm : "manhattan" ∉ methodKeys := by decide
  exact ⟨hd, hh, hz, ha, hmm,
    ((claim_C7 dfW recW "disco" "hyper" "x" "y" 5).1 hd).1,
    (claim_C7 dfW recW "disco" "hyper" "x" "y" 5).2.1 hh,
    (claim_C7 dfW recW "disco" "hyper" "knn" "zzz" 5).2.2.2.1 hz,
    (claim_C7 dfW recW "disco" "hyper" "manhattan" "a" 5).2.2.2.2 ha hmm⟩

/-! ## Claim C8: min-max normalization of a constant column -/

/-- C8 (code bug): the claim says a constant tempo column normalizes to 0
for every row with the divisor substituted by 1.0, and the spec's §4.1
policy demands it, but the cited code divides by the raw range: on a
constant column it computes `0.0 / 0.0 = NaN` (`none`) for every row.
The spec-modelled guarded version produces the claimed 0 column. -/
theorem claim_C8_code_bug :
    minMaxNormalize [120, 120] = [none, none] ∧
    minMaxNormalizeSpecPolicy [120, 120] = [0, 0] := by
  constructor <;> norm_num [minMaxNormalize, minMaxNormalizeSpecPolicy, colMin, colMax]

/-! ## Claim C9: the cluster-count search -/

theorem le_maxListQ_foldl {β : Type} [LinearOrder β] {xs : List β} {b : β} :
    b ≤ xs.foldl max b ∧ ∀ x ∈ xs, x ≤ xs.foldl max b := by
  induction xs generalizing b with
  | nil => simp
  | cons y ys ih =>
    refine ⟨le_trans (le_max_left b y) (ih).1, ?_⟩
    intro x hx
    rcases List.mem_cons.mp hx with h | h
    · subst h
      exact le_trans (le_max_right b x) (ih).1
    · exact (ih).2 x h

theorem foldl_max_mem {β : Type} [LinearOrder β] {xs : List β} {b : β} :
    xs.foldl max b ∈ b :: xs := by
  induction xs generalizing b with
  | nil => simp
  | cons y ys ih =>
    have h := @ih (max b y)
    simp only [List.foldl_cons]
    rcases List.mem_cons.mp h with h1 | h1
    · rcases max_choice b y with hm | hm
      · rw [h1, hm]
        exact List.mem_cons_self _ _
      · rw [h1, hm]
        exact List.mem_cons_of_mem _ (List.mem_cons_self _ _)
    · exact List.mem_cons_of_mem _ (List.mem_cons_of_mem _ h1)

theorem le_maxListQ {l : List ℚ} {x : ℚ} (hx : x ∈ l) : x ≤ maxListQ l := by
  cases l with
  | nil => cases hx
  | cons y ys =>
    rcases List.mem_cons.mp hx with h | h
    · exact h ▸ (@le_maxListQ_foldl _ _ ys y).1
    · exact (@le_maxListQ_foldl _ _ ys y).2 x h

theorem maxListQ_mem {l : List ℚ} (h : l ≠ []) : maxListQ l ∈ l := by
  cases l with
  | nil => exact absurd rfl h
  | cons y ys => exact foldl_max_mem

theorem argmaxIdx_lt_length {l : List ℚ} (h : l ≠ []) : argmaxIdx l < l.length :=
  List.findIdx_lt_length_of_exists ⟨maxListQ l, maxListQ_mem h, by simp⟩

theorem getElem_argmaxIdx {l : List ℚ} (w : argmaxIdx l < l.length) :
    l[argmaxIdx l] = maxListQ l := by
  have hp := @List.findIdx_getElem _ (fun x => decide (x = maxListQ l)) l w
  simpa using hp

/-- C9: with `auto_optimize=True`, `fit` runs the cluster-count search
with the default candidate range, which evaluates every `k` in `2..10`
inclusive (recording silhouette and Davies-Bouldin scores for each) and
selects the `k` of maximal silhouette score; the Davies-Bouldin scores
never influence the selection (replacing them by any other scores leaves
the chosen `k` unchanged). -/
theorem claim_C9 (c : MoodClusterer) (sil db dbOther : Nat → ℚ) :
    (find_optimal_clusters sil db 10).2.ks = [2, 3, 4, 5, 6, 7, 8, 9, 10] ∧
    (find_optimal_clusters sil db 10).2.silhouettes = [2, 3, 4, 5, 6, 7, 8, 9, 10].map sil ∧
    (find_optimal_clusters sil db 10).2.davies_bouldin = [2, 3, 4, 5, 6, 7, 8, 9, 10].map db ∧
    (find_optimal_clusters sil db 10).1 ∈ [2, 3, 4, 5, 6, 7, 8, 9, 10] ∧
    (∀ k ∈ [2, 3, 4, 5, 6, 7, 8, 9, 10], sil k ≤ sil (find_optimal_clusters sil db 10).1) ∧
    (find_optimal_clusters sil dbOther 10).1 = (find_optimal_clusters sil db 10).1 ∧
    c.fitNClusters true sil db = (find_optimal_clusters sil db 10).1 := by
  have hks : K_range 10 = [2, 3, 4, 5, 6, 7, 8, 9, 10] := by decide
  have hne : ([2, 3, 4, 5, 6, 7, 8, 9, 10] : List Nat).map sil ≠ [] := by simp
  have hlt : argmaxIdx (([2, 3, 4, 5, 6, 7, 8, 9, 10] : List Nat).map sil) <
      (([2, 3, 4, 5, 6, 7, 8, 9, 10] : List Nat).map sil).length :=
    argmaxIdx_lt_length hne
  have hlt' : argmaxIdx (([2, 3, 4, 5, 6, 7, 8, 9, 10] : List Nat).map sil) <
      ([2, 3, 4, 5, 6, 7, 8, 9, 10] : List Nat).length := by
    simpa using hlt
  have hsel : (find_optimal_clusters sil db 10).1 =
      ([2, 3, 4, 5, 6, 7, 8, 9, 10] : List Nat)[argmaxIdx
        (([2, 3, 4, 5, 6, 7, 8, 9, 10] : List Nat).map sil)] := by
    simp only [find_optimal_clusters, hks]
    exact List.getD_eq_getElem _ _ hlt'
  refine ⟨by simp [find_optimal_clusters, hks], by simp [find_optimal_clusters, hks],
    by simp [find_optimal_clusters, hks], ?_, ?_, ?_, ?_⟩
  · rw [hsel]
    exact List.getElem_mem _
  · intro k hk
    have hsil : sil (find_optimal_clusters sil db 10).1 =
        maxListQ (([2, 3, 4, 5, 6, 7, 8, 9, 10] : List Nat).map sil) := by
      rw [hsel, ← List.getElem_map (f := sil) (h := hlt)]
      exact getElem_argmaxIdx hlt
    rw [hsil]
    exact le_maxListQ (List.mem_map_of_mem sil hk)
  · simp only [find_optimal_clusters, hks]
  · rfl

/-- Witness for C9 at an explicit input: constant scores, where the first
candidate `k = 2` attains the maximum and is selected. -/
theorem claim_C9_witness :
    ((find_optimal_clusters (fun _ => 0) (fun _ => 1) 10).2.ks = [2, 3, 4, 5, 6, 7, 8, 9, 10] ∧
     (find_optimal_clusters (fun _ => 0) (fun _ => 1) 10).2.silhouettes =
       [2, 3, 4, 5, 6, 7, 8, 9, 10].map (fun _ => (0 : ℚ)) ∧
     (find_optimal_clusters (fun _ => 0) (fun _ => 1) 10).2.davies_bouldin =
       [2, 3, 4, 5, 6, 7, 8, 9, 10].map (fun _ => (1 : ℚ)) ∧
     (find_optimal_clusters (fun _ => 0) (fun _ => 1) 10).1 ∈ [2, 3, 4, 5, 6, 7, 8, 9, 10] ∧
     (∀ k ∈ [2, 3, 4, 5, 6, 7, 8, 9, 10], (fun _ => (0 : ℚ)) k ≤
       (fun _ => (0 : ℚ)) (find_optimal_clusters (fun _ => 0) (fun _ => 1) 10).1) ∧
     (find_optimal_clusters (fun _ => 0) (fun _ => 7) 10).1 =
       (find_optimal_clusters (fun _ => 0) (fun _ => 1) 10).1 ∧
     (MoodClusterer.mk 5 42).fitNClusters true (fun _ => 0) (fun _ => 1) =
       (find_optimal_clusters (fun _ => 0) (fun _ => 1) 10).1) ∧
    (find_optimal_clusters (fun _ => 0) (fun _ => 1) 10).1 = 2 :=
  ⟨claim_C9 ⟨5, 42⟩ (fun _ => 0) (fun _ => 1) (fun _ => 7), by decide⟩

/-! ## Claim C10: `load_model` path containment -/

/-- C10: `load_model` loads only paths that resolve inside the trusted
model directory: whenever the resolved candidate path escapes
`MODEL_DIR` the `ValueError` is raised and nothing is read (the `.error`
result is produced before the load step), and any path that is actually
loaded (`.ok`) is the resolved in-directory path of the filename's
basename. -/
theorem claim_C10 (filename : List String) :
    (¬ ((pathResolve MODEL_DIR).isPrefixOf
        (pathResolve (MODEL_DIR ++ [pathName filename])) = true) →
      load_model filename = .error "Invalid model filename") ∧
    (∀ p, load_model filename = .ok p →
      (pathResolve MODEL_DIR).isPrefixOf p = true ∧
      p = pathResolve (MODEL_DIR ++ [pathName filename])) := by
  constructor
  · intro h
    simp only [load_model]
    rw [if_neg h]
  · intro p hp
    simp only [load_model] at hp
    by_cases hpre : (pathResolve MODEL_DIR).isPrefixOf
        (pathResolve (MODEL_DIR ++ [pathName filename])) = true
    · rw [if_pos hpre] at hp
      have := Except.ok.inj hp
      exact ⟨this ▸ hpre, this.symm⟩
    · rw [if_neg hpre] at hp
      cases hp

/-- Witness for C10 at an explicit input: the traversal filename
`"evil/.."` has basename `".."`, resolves to the parent of `MODEL_DIR`,
and is rejected with the `ValueError` before any load. -/
theorem claim_C10_witness :
    (¬ ((pathResolve MODEL_DIR).isPrefixOf
        (pathResolve (MODEL_DIR ++ [pathName ["evil", ".."]])) = true)) ∧
    load_model ["evil", ".."] = .error "Invalid model filename" :=
  ⟨by decide, (claim_C10 ["evil", ".."]).1 (by decide)⟩

/-! ## Vector arithmetic lemmas -/

theorem dotProd_self_nonneg (u : List ℚ) : 0 ≤ dotProd u u := by
  induction u with
  | nil => simp [dotProd]
  | cons a us ih =>
    have : dotProd (a :: us) (a :: us) = a * a + dotProd us us := by
      simp [dotProd]
    rw [this]
    nlinarith [sq_nonneg a]

theorem sqNorm_nonneg (u : List ℚ) : 0 ≤ sqNorm u :=
  dotProd_self_nonneg u

theorem sqDist_nonneg (u v : List ℚ) : 0 ≤ sqDist u v :=
  dotProd_self_nonneg _

/-- AM-GM-style auxiliary step for Cauchy-Schwarz. -/
theorem two_mul_le_of_sq_le {a b U V D : ℚ} (hU : 0 ≤ U) (hV : 0 ≤ V)
    (hD : D ^ 2 ≤ U * V) : 2 * (a * b * D) ≤ a ^ 2 * V + b ^ 2 * U := by
  rcases le_or_lt (a * b * D) 0 with h | h
  · have h1 : 0 ≤ a ^ 2 * V := mul_nonneg (sq_nonneg a) hV
    have h2 : 0 ≤ b ^ 2 * U := mul_nonneg (sq_nonneg b) hU
    linarith
  · have h4 : (2 * (a * b * D)) ^ 2 ≤ (a ^ 2 * V + b ^ 2 * U) ^ 2 := by
      nlinarith [sq_nonneg (a ^ 2 * V - b ^ 2 * U),
        mul_nonneg (mul_nonneg (sq_nonneg a) (sq_nonneg b)) (sub_nonneg.mpr hD)]
    have hynn : 0 ≤ a ^ 2 * V + b ^ 2 * U :=
      add_nonneg (mul_nonneg (sq_nonneg a) hV) (mul_nonneg (sq_nonneg b) hU)
    nlinarith [h4, h, hynn]

/-- Cauchy-Schwarz for rational feature vectors. -/
theorem dotProd_sq_le (u v : List ℚ) : (dotProd u v) ^ 2 ≤ sqNorm u * sqNorm v := by
  induction u generalizing v with
  | nil =>
    simp [dotProd, sqNorm]
  | cons a us ih =>
    cases v with
    | nil =>
      have h0 : dotProd (a :: us) ([] : List ℚ) = 0 := by simp [dotProd]
      have h1 : sqNorm ([] : List ℚ) = 0 := by simp [sqNorm, dotProd]
      rw [h0, h1]
      simp
    | cons b vs =>
      have h1 : dotProd (a :: us) (b :: vs) = a * b + dotProd us vs := by
        simp [dotProd]
      have h2 : sqNorm (a :: us) = a * a + sqNorm us := by
        simp [sqNorm, dotProd]
      have h3 : sqNorm (b :: vs) = b * b + sqNorm vs := by
        simp [sqNorm, dotProd]
      rw [h1, h2, h3]
      have hU := sqNorm_nonneg us
      have hV := sqNorm_nonneg vs
      have hIH := ih vs
      have hkey := two_mul_le_of_sq_le (a := a) (b := b) hU hV hIH
      nlinarith [hkey, hIH]

theorem normR_nonneg (u : List ℚ) : 0 ≤ normR u :=
  Real.sqrt_nonneg _

theorem cosSimR_bounds (u v : List ℚ) : -1 ≤ cosSimR u v ∧ cosSimR u v ≤ 1 := by
  unfold cosSimR
  split
  · norm_num
  · rename_i h
    push_neg at h
    obtain ⟨hu, hv⟩ := h
    have hu' : (0 : ℝ) < ((sqNorm u : ℚ) : ℝ) := by
      have h0 := sqNorm_nonneg u
      have h1 : (0 : ℚ) < sqNorm u := lt_of_le_of_ne h0 (Ne.symm hu)
      exact_mod_cast h1
    have hv' : (0 : ℝ) < ((sqNorm v : ℚ) : ℝ) := by
      have h0 := sqNorm_nonneg v
      have h1 : (0 : ℚ) < sqNorm v := lt_of_le_of_ne h0 (Ne.symm hv)
      exact_mod_cast h1
    have hnu : 0 < normR u := Real.sqrt_pos.mpr hu'
    have hnv : 0 < normR v := Real.sqrt_pos.mpr hv'
    have habs : |((dotProd u v : ℚ) : ℝ)| ≤ normR u * normR v := by
      have hcs : ((dotProd u v : ℚ) : ℝ) ^ 2 ≤ ((sqNorm u : ℚ) : ℝ) * ((sqNorm v : ℚ) : ℝ) := by
        exact_mod_cast dotProd_sq_le u v
      have heq : |((dotProd u v : ℚ) : ℝ)| =
          Real.sqrt (((dotProd u v : ℚ) : ℝ) ^ 2) := (Real.sqrt_sq_eq_abs _).symm
      rw [heq]
      have h2 : Real.sqrt (((dotProd u v : ℚ) : ℝ) ^ 2) ≤
          Real.sqrt (((sqNorm u : ℚ) : ℝ) * ((sqNorm v : ℚ) : ℝ)) :=
        Real.sqrt_le_sqrt hcs
      rw [Real.sqrt_mul (le_of_lt hu')] at h2
      exact h2
    have hratio : |((dotProd u v : ℚ) : ℝ) / (normR u * normR v)| ≤ 1 := by
      rw [abs_div, abs_of_pos (mul_pos hnu hnv), div_le_one (mul_pos hnu hnv)]
      exact habs
    exact ⟨(abs_le.mp hratio).1, (abs_le.mp hratio).2⟩

theorem knnScore_bounds (rec : Recommender) (idx j : Nat) :
    ∃ x : ℝ, knnScore rec idx j = some x ∧ 0 ≤ x ∧ x ≤ 1 := by
  obtain ⟨h1, h2⟩ := cosSimR_bounds (rec.vec idx) (rec.vec j)
  refine ⟨1 - cosDistR (rec.vec idx) (rec.vec j) / 2, rfl, ?_, ?_⟩ <;>
    unfold cosDistR <;> linarith

theorem cosScore_bounds (rec : Recommender) (idx j : Nat) :
    ∃ x : ℝ, cosScore rec idx j = some x ∧ 0 ≤ x ∧ x ≤ 1 := by
  obtain ⟨h1, h2⟩ := cosSimR_bounds (rec.vec idx) (rec.vec j)
  refine ⟨(cosSimWithSentinel rec idx j + 1) / 2, rfl, ?_, ?_⟩ <;>
    unfold cosSimWithSentinel <;> split <;> [norm_num; linarith; norm_num; linarith]

theorem euclScore_bounds {m q : ℚ} (hq : 0 ≤ q) (hle : q ≤ m) :
    ∃ x : ℝ, euclScore (some m) (some q) = some x ∧ 0 ≤ x ∧ x ≤ 1 := by
  have hunf : euclScore (some m) (some q) =
      some (1 - Real.sqrt ((q : ℚ) : ℝ) /
        Real.sqrt (((if 0 < m then m else 1) : ℚ) : ℝ)) := rfl
  refine ⟨_, hunf, ?_, ?_⟩
  · by_cases hm : 0 < m
    · rw [if_pos hm]
      have hm' : (0 : ℝ) < ((m : ℚ) : ℝ) := by exact_mod_cast hm
      have hle' : ((q : ℚ) : ℝ) ≤ ((m : ℚ) : ℝ) := by exact_mod_cast hle
      have h1 : Real.sqrt ((q : ℚ) : ℝ) ≤ Real.sqrt ((m : ℚ) : ℝ) :=
        Real.sqrt_le_sqrt hle'
      have h2 : (0 : ℝ) < Real.sqrt ((m : ℚ) : ℝ) := Real.sqrt_pos.mpr hm'
      have h3 : Real.sqrt ((q : ℚ) : ℝ) / Real.sqrt ((m : ℚ) : ℝ) ≤ 1 := by
        rw [div_le_one h2]
        exact h1
      linarith
    · have hm0 : m = 0 := le_antisymm (not_lt.mp hm) (hq.trans hle)
      have hq0 : q = 0 := le_antisymm (hm0 ▸ hle) hq
      rw [if_neg hm, hq0]
      simp
  · have h1 : 0 ≤ Real.sqrt ((q : ℚ) : ℝ) := Real.sqrt_nonneg _
    have h2 : 0 ≤ Real.sqrt (((if 0 < m then m else 1) : ℚ) : ℝ) := Real.sqrt_nonneg _
    have h3 : 0 ≤ Real.sqrt ((q : ℚ) : ℝ) /
        Real.sqrt (((if 0 < m then m else 1) : ℚ) : ℝ) := div_nonneg h1 h2
    linarith

/-! ## Shape of `recommend_by_song` results -/

theorem recommend_by_song_shape (rec : Recommender) (song_id method : String) :
    (recommend_by_song rec song_id method).map (List.map Prod.fst) =
      (recommendIdx rec song_id method).map (List.map rec.row) ∧
    (recommend_by_song rec song_id method).map List.length =
      (recommendIdx rec song_id method).map List.length := by
  unfold recommend_by_song recommendIdx
  cases h : findSeedIdx rec song_id with
  | none => simp [Except.map]
  | some idx =>
    by_cases h1 : method = "knn"
    · simp only [h1, if_pos]
      cases hk : kneighborsIdx rec idx with
      | error e => simp [Except.map]
      | ok nb => simp [Except.map, List.map_map, Function.comp_def]
    · by_cases h2 : method = "cosine"
      · simp only [h1, h2, if_neg, if_pos]
        simp [Except.map, List.map_map, Function.comp_def]
      · by_cases h3 : method = "euclidean"
        · simp only [h1, h2, h3, if_neg, if_pos]
          simp [Except.map, List.map_map, Function.comp_def]
        · simp only [h1, h2, h3, if_neg]
          simp [Except.map]

theorem recommend_by_song_ok_ids {rec : Recommender} {song_id method : String}
    {l : List (Track × Option ℝ)}
    (h : recommend_by_song rec song_id method = .ok l) :
    ∃ li, recommendIdx rec song_id method = .ok li ∧
      l.map (fun p => p.1.track_id) = li.map (fun j => (rec.row j).track_id) := by
  have hshape := (recommend_by_song_shape rec song_id method).1
  rw [h] at hshape
  cases hidx : recommendIdx rec song_id method with
  | error e =>
    rw [hidx] at hshape
    simp [Except.map] at hshape
  | ok li =>
    rw [hidx] at hshape
    simp only [Except.map] at hshape
    refine ⟨li, rfl, ?_⟩
    have hfst : l.map Prod.fst = li.map rec.row := Except.ok.inj hshape
    calc l.map (fun p => p.1.track_id) = (l.map Prod.fst).map Track.track_id := by
          simp [List.map_map, Function.comp_def]
      _ = (li.map rec.row).map Track.track_id := by rw [hfst]
      _ = li.map (fun j => (rec.row j).track_id) := by
          simp [List.map_map, Function.comp_def]

/-! ## Per-method selection lemmas -/

theorem recommendIdx_knn_eq {rec : Recommender} {song_id : String} {idx : Nat}
    (hidx : findSeedIdx rec song_id = some idx) :
    recommendIdx rec song_id "knn" =
      (kneighborsIdx rec idx).map (fun nb => (nb.drop 1).take rec.n_recommendations) := by
  unfold recommendIdx
  rw [hidx]
  simp

theorem recommendIdx_cosine_eq {rec : Recommender} {song_id : String} {idx : Nat}
    (hidx : findSeedIdx rec song_id = some idx) :
    recommendIdx rec song_id "cosine" =
      .ok ((cosineTopIdx rec idx).take rec.n_recommendations) := by
  unfold recommendIdx
  rw [hidx]
  simp

theorem recommendIdx_eucl_eq {rec : Recommender} {song_id : String} {idx : Nat}
    (hidx : findSeedIdx rec song_id = some idx) :
    recommendIdx rec song_id "euclidean" =
      .ok ((euclTopIdx rec idx).take rec.n_recommendations) := by
  unfold recommendIdx
  rw [hidx]
  simp

theorem knnOrder_length (rec : Recommender) (idx : Nat) :
    (knnOrder rec idx).length = rec.N :=
  argsortKey_length _ _

theorem knnOrder_cons {rec : Recommender} {idx : Nat} (hidxN : idx < rec.N)
    (hstrict : ∀ j < rec.N, j ≠ idx →
      simProxy (rec.vec idx) (rec.vec j) < simProxy (rec.vec idx) (rec.vec idx)) :
    ∃ t, knnOrder rec idx = idx :: t := by
  apply sorted_cons_of_strict_min (argsortKey_sorted _ _) (argsortKey_mem.mpr hidxN)
  intro j hj hne
  have hjN := argsortKey_mem.mp hj
  have hlt := hstrict j hjN hne
  unfold knnKey
  exact neg_lt_neg hlt

theorem knn_sel_facts {rec : Recommender} {idx : Nat} (hidxN : idx < rec.N)
    (hstrict : ∀ j < rec.N, j ≠ idx →
      simProxy (rec.vec idx) (rec.vec j) < simProxy (rec.vec idx) (rec.vec idx))
    {li : List Nat}
    (h : (kneighborsIdx rec idx).map
      (fun nb => (nb.drop 1).take rec.n_recommendations) = .ok li) :
    ∀ j ∈ li, j < rec.N ∧ j ≠ idx := by
  unfold kneighborsIdx at h
  by_cases hm : rec.knn_n_neighbors ≤ rec.N
  case neg =>
    rw [if_neg hm] at h
    simp [Except.map] at h
  rw [if_pos hm] at h
  simp only [Except.map] at h
  have hli : li =
      (((knnOrder rec idx).take rec.knn_n_neighbors).drop 1).take rec.n_recommendations :=
    (Except.ok.inj h).symm
  obtain ⟨t, ht⟩ := knnOrder_cons hidxN hstrict
  have hnodup : (knnOrder rec idx).Nodup := argsortKey_nodup _ _
  rw [ht] at hnodup
  have hidxt : idx ∉ t := (List.nodup_cons.mp hnodup).1
  intro j hj
  rw [hli, ht] at hj
  have hjt : j ∈ t := by
    cases hmn : rec.knn_n_neighbors with
    | zero =>
      rw [hmn] at hj
      simp at hj
    | succ mm =>
      rw [hmn, List.take_succ_cons] at hj
      rw [List.drop_one, List.tail_cons] at hj
      exact List.take_subset _ _ (List.take_subset _ _ hj)
  constructor
  · have hmem : j ∈ knnOrder rec idx := by
      rw [ht]
      exact List.mem_cons_of_mem _ hjt
    exact argsortKey_mem.mp hmem
  · intro hje
    exact hidxt (hje ▸ hjt)

theorem cos_sel_facts {rec : Recommender} {idx : Nat} (hidxN : idx < rec.N)
    (hcnt : rec.n_recommendations ≤ ((List.range rec.N).filter
      (fun j => decide (cosKey rec idx idx < cosKey rec idx j))).length) :
    ∀ j ∈ (cosineTopIdx rec idx).take rec.n_recommendations, j < rec.N ∧ j ≠ idx := by
  intro j hj
  have hj2 : j ∈ (argsortKey rec.N (cosKey rec idx)).reverse.take rec.n_recommendations := by
    unfold cosineTopIdx at hj
    rw [List.take_take, min_self] at hj
    exact hj
  constructor
  · exact argsortKey_mem.mp (List.mem_reverse.mp (List.take_subset _ _ hj2))
  · intro hje
    rw [hje] at hj2
    have hperm := (argsortKey_perm rec.N (cosKey rec idx)).filter
      (fun j2 => decide (cosKey rec idx idx < cosKey rec idx j2))
    have hcnt' : rec.n_recommendations ≤ ((argsortKey rec.N (cosKey rec idx)).filter
        (fun j2 => decide (cosKey rec idx idx < cosKey rec idx j2))).length := by
      rw [hperm.length_eq]
      exact hcnt
    exact not_mem_reverse_take_of_count (argsortKey_sorted _ _) (argsortKey_nodup _ _)
      (argsortKey_mem.mpr hidxN) hcnt' hj2

theorem eucl_sel_facts {rec : Recommender} {idx : Nat} (hidxN : idx < rec.N)
    (hlt : rec.n_recommendations < rec.N) :
    ∀ j ∈ (euclTopIdx rec idx).take rec.n_recommendations, j < rec.N ∧ j ≠ idx := by
  intro j hj
  have hj2 : j ∈ (argsortKey rec.N (euclKey rec idx)).take rec.n_recommendations := by
    unfold euclTopIdx at hj
    rw [List.take_take, min_self] at hj
    exact hj
  constructor
  · exact argsortKey_mem.mp (List.take_subset _ _ hj2)
  · intro hje
    rw [hje] at hj2
    have hmax : ∀ k ∈ argsortKey rec.N (euclKey rec idx), k ≠ idx →
        euclKey rec idx k < euclKey rec idx idx := by
      intro k _ hkne
      unfold euclKey
      rw [if_neg hkne, if_pos rfl]
      exact WithTop.coe_lt_top _
    have hn : rec.n_recommendations ≤ (argsortKey rec.N (euclKey rec idx)).length - 1 := by
      rw [argsortKey_length]
      omega
    exact not_mem_take_of_strict_max (argsortKey_sorted _ _) (argsortKey_nodup _ _)
      (argsortKey_mem.mpr hidxN) hmax hn hj2

theorem song_id_not_mem {rec : Recommender} {song_id : String} {idx : Nat}
    (hwf : rec.WF) (hidx : findSeedIdx rec song_id = some idx)
    {li : List Nat} (hfacts : ∀ j ∈ li, j < rec.N ∧ j ≠ idx)
    {l : List (Track × Option ℝ)}
    (hids : l.map (fun p => p.1.track_id) = li.map (fun j => (rec.row j).track_id)) :
    song_id ∉ l.map (fun p => p.1.track_id) := by
  rw [hids]
  intro hmem
  obtain ⟨j, hjli, hjid⟩ := List.mem_map.mp hmem
  obtain ⟨hjN, hjne⟩ := hfacts j hjli
  obtain ⟨hidxlen, hidxid⟩ := findSeedIdx_facts hidx
  have hN : rec.N = rec.df.length := hwf.1
  have hne := row_id_ne hwf.2 (hN ▸ hjN) hidxlen hjne
  rw [hidxid] at hne
  exact hne hjid

/-! ## Claim C1: seed exclusion -/

/-- C1 (amended): the seed track's own id never appears in its own result
set, provided the per-method self-exclusion mechanism actually fires:
for `knn`, every other row must be strictly less cosine-similar to the
seed than the seed itself (`simProxy` is the order-faithful rational
surrogate of cosine similarity for a fixed seed) — this rules out a
duplicate of the seed's vector at a smaller index stealing the dropped
first slot; for `cosine`, at least `n_recommendations` rows must rank
strictly above the seed's `-1` sentinel (`cosKey rec idx idx`); for
`euclidean`, the catalog must have more than `n_recommendations` rows.
Unamended, the claim is refuted by `claim_C1_counterexample`: with a
catalog no larger than `n_recommendations` the sentinel-scored seed row
itself is selected. -/
theorem claim_C1_amended (rec : Recommender) (song_id : String) (idx : Nat)
    (hwf : rec.WF) (hidx : findSeedIdx rec song_id = some idx) :
    ((∀ j < rec.N, j ≠ idx →
        simProxy (rec.vec idx) (rec.vec j) < simProxy (rec.vec idx) (rec.vec idx)) →
      ∀ l, recommend_by_song rec song_id "knn" = .ok l →
        song_id ∉ l.map (fun p => p.1.track_id)) ∧
    ((rec.n_recommendations ≤ ((List.range rec.N).filter
        (fun j => decide (cosKey rec idx idx < cosKey rec idx j))).length) →
      ∀ l, recommend_by_song rec song_id "cosine" = .ok l →
        song_id ∉ l.map (fun p => p.1.track_id)) ∧
    (rec.n_recommendations < rec.N →
      ∀ l, recommend_by_song rec song_id "euclidean" = .ok l →
        song_id ∉ l.map (fun p => p.1.track_id)) := by
  have hidxN : idx < rec.N := by
    have h1 := (findSeedIdx_facts hidx).1
    rw [Recommender.N, hwf.1]
    exact h1
  refine ⟨?_, ?_, ?_⟩
  · intro hstrict l hl
    obtain ⟨li, hli, hids⟩ := recommend_by_song_ok_ids hl
    rw [recommendIdx_knn_eq hidx] at hli
    exact song_id_not_mem hwf hidx (knn_sel_facts hidxN hstrict hli) hids
  · intro hcnt l hl
    obtain ⟨li, hli, hids⟩ := recommend_by_song_ok_ids hl
    rw [recommendIdx_cosine_eq hidx] at hli
    have hlieq : li = (cosineTopIdx rec idx).take rec.n_recommendations :=
      (Except.ok.inj hli).symm
    subst hlieq
    exact song_id_not_mem hwf hidx (cos_sel_facts hidxN hcnt) hids
  · intro hlt l hl
    obtain ⟨li, hli, hids⟩ := recommend_by_song_ok_ids hl
    rw [recommendIdx_eucl_eq hidx] at hli
    have hlieq : li = (euclTopIdx rec idx).take rec.n_recommendations :=
      (Except.ok.inj hli).symm
    subst hlieq
    exact song_id_not_mem hwf hidx (eucl_sel_facts hidxN hlt) hids

/-- Witness for C1 at an explicit input: `recW`, seed `"a"` at row 0,
with the euclidean-side condition `n_recommendations < N` discharged
concretely. -/
theorem claim_C1_witness :
    recW.WF ∧ findSeedIdx recW "a" = some 0 ∧ recW.n_recommendations < recW.N ∧
    ((∀ j < recW.N, j ≠ 0 →
        simProxy (recW.vec 0) (recW.vec j) < simProxy (recW.vec 0) (recW.vec 0)) →
      ∀ l, recommend_by_song recW "a" "knn" = .ok l →
        "a" ∉ l.map (fun p => p.1.track_id)) ∧
    ((recW.n_recommendations ≤ ((List.range recW.N).filter
        (fun j => decide (cosKey recW 0 0 < cosKey recW 0 j))).length) →
      ∀ l, recommend_by_song recW "a" "cosine" = .ok l →
        "a" ∉ l.map (fun p => p.1.track_id)) ∧
    (recW.n_recommendations < recW.N →
      ∀ l, recommend_by_song recW "a" "euclidean" = .ok l →
        "a" ∉ l.map (fun p => p.1.track_id)) :=
  ⟨by decide, by decide, by decide, claim_C1_amended recW "a" 0 (by decide) (by decide)⟩

theorem argsort_recSmall_cos : argsortKey recSmall.N (cosKey recSmall 0) = [0, 1] := by
  have h00 : cosKey recSmall 0 0 = -1 := by
    norm_num [cosKey, sentinelProxy, sqNorm, dotProd, recSmall, Recommender.vec]
  have h01 : cosKey recSmall 0 1 = 0 := by
    norm_num [cosKey, simProxy, sqNorm, dotProd, recSmall, Recommender.vec]
  have hle : keyLe (cosKey recSmall 0) 0 1 := by
    refine Or.inl ?_
    rw [h00, h01]
    norm_num
  show List.insertionSort _ (List.range recSmall.N) = [0, 1]
  rw [show List.range recSmall.N = [0, 1] from rfl]
  simp only [List.insertionSort, List.orderedInsert]
  rw [if_pos hle]

theorem recommendIdx_recSmall_cos : recommendIdx recSmall "a" "cosine" = .ok [1, 0] := by
  rw [recommendIdx_cosine_eq (show findSeedIdx recSmall "a" = some 0 from by decide)]
  unfold cosineTopIdx
  rw [argsort_recSmall_cos]
  rfl

/-- C1 counterexample: on the default configuration
(`n_recommendations = 5`) over a two-track catalog, the cosine method
returns BOTH rows — the seed `"a"` (with its `-1` sentinel similarity)
appears in its own result set, refuting the claim as stated. -/
theorem claim_C1_counterexample :
    (recommend_by_song recSmall "a" "cosine").map (List.map (fun p => p.1.track_id)) =
      .ok ["b", "a"] := by
  cases hr : recommend_by_song recSmall "a" "cosine" with
  | error e =>
    have hshape := (recommend_by_song_shape recSmall "a" "cosine").2
    rw [hr, recommendIdx_recSmall_cos] at hshape
    simp [Except.map] at hshape
  | ok l =>
    obtain ⟨li, hli, hids⟩ := recommend_by_song_ok_ids hr
    rw [recommendIdx_recSmall_cos] at hli
    have hlieq : li = [1, 0] := (Except.ok.inj hli).symm
    subst hlieq
    simp only [Except.map]
    rw [hids]
    decide

/-! ## Claim C2: score bounds -/

theorem recommend_by_song_knn_eq {rec : Recommender} {song_id : String} {idx : Nat}
    (hidx : findSeedIdx rec song_id = some idx) :
    recommend_by_song rec song_id "knn" = (kneighborsIdx rec idx).map
      (fun nb => ((nb.drop 1).take rec.n_recommendations).map
        (fun j => (rec.row j, knnScore rec idx j))) := by
  unfold recommend_by_song
  rw [hidx]
  simp

theorem recommend_by_song_cosine_eq {rec : Recommender} {song_id : String} {idx : Nat}
    (hidx : findSeedIdx rec song_id = some idx) :
    recommend_by_song rec song_id "cosine" =
      .ok (((cosineTopIdx rec idx).take rec.n_recommendations).map
        (fun j => (rec.row j, cosScore rec idx j))) := by
  unfold recommend_by_song
  rw [hidx]
  simp

theorem recommend_by_song_eucl_eq {rec : Recommender} {song_id : String} {idx : Nat}
    (hidx : findSeedIdx rec song_id = some idx) :
    recommend_by_song rec song_id "euclidean" =
      .ok (((euclTopIdx rec idx).take rec.n_recommendations).map
        (fun j => (rec.row j,
          euclScore (euclMax2 rec idx (euclTopIdx rec idx)) (euclKey rec idx j)))) := by
  unfold recommend_by_song
  rw [hidx]
  simp

theorem foldl_max_ne_top {l : List (WithTop ℚ)} {b : WithTop ℚ} (hb : b ≠ ⊤)
    (hl : ∀ x ∈ l, x ≠ ⊤) : l.foldl max b ≠ ⊤ := by
  induction l generalizing b with
  | nil => exact hb
  | cons y ys ih =>
    have hy : y ≠ ⊤ := hl y (List.mem_cons_self y ys)
    have hmax : max b y ≠ ⊤ := by
      rcases max_choice b y with h | h <;> rw [h]
      · exact hb
      · exact hy
    exact ih hmax (fun x hx => hl x (List.mem_cons_of_mem _ hx))

theorem euclMax2_eq_foldl (rec : Recommender) (idx : Nat) (sel : List Nat) :
    euclMax2 rec idx sel =
      (sel.map (euclKey rec idx)).foldl max ((0 : ℚ) : WithTop ℚ) := by
  unfold euclMax2
  rw [List.foldl_map]

theorem euclMax2_le {rec : Recommender} {idx : Nat} {sel : List Nat} {j : Nat}
    (hj : j ∈ sel) : euclKey rec idx j ≤ euclMax2 rec idx sel := by
  rw [euclMax2_eq_foldl]
  exact le_maxListQ_foldl.2 _ (List.mem_map_of_mem _ hj)

theorem euclMax2_ne_top {rec : Recommender} {idx : Nat} {sel : List Nat}
    (h : ∀ j ∈ sel, j ≠ idx) : euclMax2 rec idx sel ≠ ⊤ := by
  rw [euclMax2_eq_foldl]
  apply foldl_max_ne_top
  · exact WithTop.coe_ne_top (a := (0 : ℚ))
  · intro x hx
    obtain ⟨j, hj, hxe⟩ := List.mem_map.mp hx
    rw [← hxe]
    unfold euclKey
    rw [if_neg (h j hj)]
    exact WithTop.coe_ne_top

theorem cosineTopIdx_take (rec : Recommender) (idx : Nat) :
    (cosineTopIdx rec idx).take rec.n_recommendations = cosineTopIdx rec idx := by
  unfold cosineTopIdx
  rw [List.take_take, min_self]

theorem euclTopIdx_take (rec : Recommender) (idx : Nat) :
    (euclTopIdx rec idx).take rec.n_recommendations = euclTopIdx rec idx := by
  unfold euclTopIdx
  rw [List.take_take, min_self]

/-- C2 (amended): every `similarity_score` value returned by the knn and
cosine methods lies in `[0, 1]`; the euclidean method's scores lie in
`[0, 1]` provided the catalog has more than `n_recommendations` rows
(so the `inf`-sentinel seed row is never selected).  Unamended, the claim
is refuted by `claim_C2_counterexample`: with a catalog no larger than
`n_recommendations`, the euclidean branch selects the seed row itself and
computes `1 - inf/inf = NaN` for it, which is not a value in `[0, 1]`. -/
theorem claim_C2_amended (rec : Recommender) (song_id : String) (idx : Nat)
    (hwf : rec.WF) (hidx : findSeedIdx rec song_id = some idx) :
    (∀ l, recommend_by_song rec song_id "knn" = .ok l →
      ∀ p ∈ l, ∃ x : ℝ, p.2 = some x ∧ 0 ≤ x ∧ x ≤ 1) ∧
    (∀ l, recommend_by_song rec song_id "cosine" = .ok l →
      ∀ p ∈ l, ∃ x : ℝ, p.2 = some x ∧ 0 ≤ x ∧ x ≤ 1) ∧
    (rec.n_recommendations < rec.N →
      ∀ l, recommend_by_song rec song_id "euclidean" = .ok l →
        ∀ p ∈ l, ∃ x : ℝ, p.2 = some x ∧ 0 ≤ x ∧ x ≤ 1) := by
  have hidxN : idx < rec.N := by
    have h1 := (findSeedIdx_facts hidx).1
    rw [Recommender.N, hwf.1]
    exact h1
  refine ⟨?_, ?_, ?_⟩
  · intro l hl
    rw [recommend_by_song_knn_eq hidx] at hl
    cases hk : kneighborsIdx rec idx with
    | error e =>
      rw [hk] at hl
      simp [Except.map] at hl
    | ok nb =>
      rw [hk] at hl
      simp only [Except.map] at hl
      intro p hp
      rw [← Except.ok.inj hl] at hp
      obtain ⟨j, _, hpe⟩ := List.mem_map.mp hp
      rw [← hpe]
      exact knnScore_bounds rec idx j
  · intro l hl
    rw [recommend_by_song_cosine_eq hidx] at hl
    intro p hp
    rw [← Except.ok.inj hl] at hp
    obtain ⟨j, _, hpe⟩ := List.mem_map.mp hp
    rw [← hpe]
    exact cosScore_bounds rec idx j
  · intro hlt l hl
    rw [recommend_by_song_eucl_eq hidx] at hl
    intro p hp
    rw [← Except.ok.inj hl] at hp
    obtain ⟨j, hj, hpe⟩ := List.mem_map.mp hp
    obtain ⟨hjN, hjne⟩ := eucl_sel_facts hidxN hlt j hj
    rw [← hpe]
    have hne : ∀ k ∈ euclTopIdx rec idx, k ≠ idx := by
      intro k hk
      exact (eucl_sel_facts hidxN hlt k ((euclTopIdx_take rec idx).symm ▸ hk)).2
    have hkey : euclKey rec idx j =
        ((sqDist (rec.vec idx) (rec.vec j) : ℚ) : WithTop ℚ) := by
      unfold euclKey
      rw [if_neg hjne]
    cases hM2 : euclMax2 rec idx (euclTopIdx rec idx) with
    | top => exact absurd hM2 (euclMax2_ne_top hne)
    | coe m =>
      have hle : euclKey rec idx j ≤ euclMax2 rec idx (euclTopIdx rec idx) :=
        euclMax2_le ((euclTopIdx_take rec idx) ▸ hj)
      rw [hkey, hM2] at hle
      have hle' : sqDist (rec.vec idx) (rec.vec j) ≤ m := by
        exact_mod_cast hle
      have hb := euclScore_bounds (sqDist_nonneg (rec.vec idx) (rec.vec j)) hle'
      rw [hkey]
      exact hb

/-- Witness for C2 at an explicit input: `recW`, seed `"a"`, with the
euclidean-side condition discharged concretely. -/
theorem claim_C2_witness :
    recW.WF ∧ findSeedIdx recW "a" = some 0 ∧ recW.n_recommendations < recW.N ∧
    ((∀ l, recommend_by_song recW "a" "knn" = .ok l →
      ∀ p ∈ l, ∃ x : ℝ, p.2 = some x ∧ 0 ≤ x ∧ x ≤ 1) ∧
    (∀ l, recommend_by_song recW "a" "cosine" = .ok l →
      ∀ p ∈ l, ∃ x : ℝ, p.2 = some x ∧ 0 ≤ x ∧ x ≤ 1) ∧
    (recW.n_recommendations < recW.N →
      ∀ l, recommend_by_song recW "a" "euclidean" = .ok l →
        ∀ p ∈ l, ∃ x : ℝ, p.2 = some x ∧ 0 ≤ x ∧ x ≤ 1)) :=
  ⟨by decide, by decide, by decide, claim_C2_amended recW "a" 0 (by decide) (by decide)⟩

theorem euclKey_recSmall3_0 : euclKey recSmall3 0 0 = ⊤ := by
  unfold euclKey
  rw [if_pos rfl]

theorem euclKey_recSmall3_1 :
    euclKey recSmall3 0 1 = ((2 : ℚ) : WithTop ℚ) := by
  have h : sqDist (recSmall3.vec 0) (recSmall3.vec 1) = 2 := by
    norm_num [sqDist, sqNorm, dotProd, recSmall3, Recommender.vec]
  unfold euclKey
  rw [if_neg (by decide), h]

theorem euclKey_recSmall3_2 :
    euclKey recSmall3 0 2 = ((2 : ℚ) : WithTop ℚ) := by
  have h : sqDist (recSmall3.vec 0) (recSmall3.vec 2) = 2 := by
    norm_num [sqDist, sqNorm, dotProd, recSmall3, Recommender.vec]
  unfold euclKey
  rw [if_neg (by decide), h]

theorem argsort_recSmall3_eucl :
    argsortKey recSmall3.N (euclKey recSmall3 0) = [1, 2, 0] := by
  have h12 : keyLe (euclKey recSmall3 0) 1 2 := by
    refine Or.inr ⟨?_, by omega⟩
    rw [euclKey_recSmall3_1, euclKey_recSmall3_2]
  have h01 : ¬ keyLe (euclKey recSmall3 0) 0 1 := by
    rw [keyLe, euclKey_recSmall3_0, euclKey_recSmall3_1]
    rintro (h | ⟨h, _⟩)
    · exact not_top_lt h
    · exact WithTop.coe_ne_top h.symm
  have h02 : ¬ keyLe (euclKey recSmall3 0) 0 2 := by
    rw [keyLe, euclKey_recSmall3_0, euclKey_recSmall3_2]
    rintro (h | ⟨h, _⟩)
    · exact not_top_lt h
    · exact WithTop.coe_ne_top h.symm
  have e2 : List.orderedInsert (keyLe (euclKey recSmall3 0)) 1 [2] = [1, 2] := by
    unfold List.orderedInsert
    rw [if_pos h12]
  have e3 : List.orderedInsert (keyLe (euclKey recSmall3 0)) 0 [1, 2] = [1, 2, 0] := by
    unfold List.orderedInsert
    rw [if_neg h01]
    unfold List.orderedInsert
    rw [if_neg h02]
    rfl
  show List.insertionSort _ (List.range recSmall3.N) = [1, 2, 0]
  rw [show List.range recSmall3.N = [0, 1, 2] from rfl]
  simp only [List.insertionSort, List.orderedInsert_nil]
  rw [e2, e3]

theorem euclTopIdx_recSmall3 : euclTopIdx recSmall3 0 = [1, 2, 0] := by
  unfold euclTopIdx
  rw [argsort_recSmall3_eucl]
  show List.take 5 [1, 2, 0] = [1, 2, 0]
  rfl

theorem euclMax2_recSmall3 : euclMax2 recSmall3 0 [1, 2, 0] = ⊤ := by
  unfold euclMax2
  simp only [List.foldl]
  rw [euclKey_recSmall3_0]
  exact max_eq_right le_top

/-- C2 counterexample: on the default configuration
(`n_recommendations = 5`) over a three-track catalog, the euclidean
method selects the seed row itself (its sentinel distance `inf` is also
the selected maximum), so its score is `1 - inf/inf` = NaN (`none`), not
a value in `[0, 1]`; the result rows are `b`, `c` and then the seed `a`
with the NaN score. -/
theorem claim_C2_counterexample :
    (recommend_by_song recSmall3 "a" "euclidean").map
      (List.map (fun p => (p.1.track_id, p.2.isNone))) =
      .ok [("b", false), ("c", false), ("a", true)] := by
  rw [recommend_by_song_eucl_eq (show findSeedIdx recSmall3 "a" = some 0 from by decide)]
  rw [euclTopIdx_recSmall3, euclMax2_recSmall3]
  simp only [Except.map, List.map_map]
  have htake : List.take recSmall3.n_recommendations [1, 2, 0] = [1, 2, 0] := by
    show List.take 5 [1, 2, 0] = [1, 2, 0]
    rfl
  rw [htake]
  simp only [List.map_cons, List.map_nil, Function.comp_apply]
  rw [euclKey_recSmall3_0, euclKey_recSmall3_1, euclKey_recSmall3_2]
  rfl

/-! ## Claim C3: result counts -/

/-- C3 (amended): the filter modes return exactly `min n (qualifying)`
rows; the cosine and euclidean methods return exactly
`min n_recommendations N` rows (`N` the catalog size — the seed row
itself counts when `N ≤ n_recommendations`, see C1); the knn method
queries the neighbour structure for its build-time neighbour count `m`
(NOT `k+1` for a requested count of `k`), drops the first hit and returns
exactly `min n_recommendations (m - 1)` rows whenever `m ≤ N`.  The
original claim's `min(n, qualifying)` behaviour for knn is refuted by
`claim_C3_counterexample`. -/
theorem claim_C3_amended (rec : Recommender) (df : List Track) (song_id : String)
    (idx : Nat) (mood tempo : String) (ths : List Threshold) (r : TempoRule) (n : Nat)
    (hm : MOOD_FILTERS.lookup mood = some ths) (ht : TEMPO_FILTERS.lookup tempo = some r)
    (hidx : findSeedIdx rec song_id = some idx) :
    ((recommend_by_mood df mood n).map List.length =
      .ok (min n (df.filter (moodRowMask ths)).length)) ∧
    ((recommend_by_tempo df tempo n).map List.length =
      .ok (min n (df.filter (tempoRowMask r)).length)) ∧
    ((recommend_by_mood_and_tempo df mood tempo n).map List.length =
      .ok (min n (df.filter (fun t => moodRowMask ths t && tempoRowMask r t)).length)) ∧
    ((recommend_by_song rec song_id "cosine").map List.length =
      .ok (min rec.n_recommendations rec.N)) ∧
    ((recommend_by_song rec song_id "euclidean").map List.length =
      .ok (min rec.n_recommendations rec.N)) ∧
    (rec.knn_n_neighbors ≤ rec.N →
      (recommend_by_song rec song_id "knn").map List.length =
        .ok (min rec.n_recommendations (rec.knn_n_neighbors - 1))) := by
  refine ⟨?_, ?_, ?_, ?_, ?_, ?_⟩
  · rw [recommend_by_mood_eq df n hm]
    simp only [Except.map]
    rw [List.length_take]
  · rw [recommend_by_tempo_eq df n ht]
    simp only [Except.map]
    rw [List.length_take]
  · rw [recommend_by_mood_and_tempo_eq df n hm ht]
    simp only [Except.map]
    rw [List.length_take]
  · rw [(recommend_by_song_shape rec song_id "cosine").2, recommendIdx_cosine_eq hidx]
    simp only [Except.map]
    rw [cosineTopIdx_take]
    unfold cosineTopIdx
    rw [List.length_take, List.length_reverse, argsortKey_length]
  · rw [(recommend_by_song_shape rec song_id "euclidean").2, recommendIdx_eucl_eq hidx]
    simp only [Except.map]
    rw [euclTopIdx_take]
    unfold euclTopIdx
    rw [List.length_take, argsortKey_length]
  · intro hkm
    rw [(recommend_by_song_shape rec song_id "knn").2, recommendIdx_knn_eq hidx]
    unfold kneighborsIdx
    rw [if_pos hkm]
    simp only [Except.map]
    rw [List.length_take, List.length_drop, List.length_take, knnOrder_length]
    congr 1
    omega

/-- Witness for C3 at an explicit input: `recW` (three tracks, two
recommendations, neighbour count 3) with the "happy" and "slow" rules on
`dfW`. -/
theorem claim_C3_witness :
    MOOD_FILTERS.lookup "happy" = some [⟨.valence, false, 0.6⟩, ⟨.energy, false, 0.5⟩] ∧
    TEMPO_FILTERS.lookup "slow" = some ⟨none, some 100⟩ ∧
    findSeedIdx recW "a" = some 0 ∧ recW.knn_n_neighbors ≤ recW.N ∧
    (((recommend_by_mood dfW "happy" 5).map List.length =
      .ok (min 5 (dfW.filter (moodRowMask [⟨.valence, false, 0.6⟩, ⟨.energy, false, 0.5⟩])).length)) ∧
    ((recommend_by_tempo dfW "slow" 5).map List.length =
      .ok (min 5 (dfW.filter (tempoRowMask ⟨none, some 100⟩)).length)) ∧
    ((recommend_by_mood_and_tempo dfW "happy" "slow" 5).map List.length =
      .ok (min 5 (dfW.filter (fun t =>
        moodRowMask [⟨.valence, false, 0.6⟩, ⟨.energy, false, 0.5⟩] t &&
          tempoRowMask ⟨none, some 100⟩ t)).length)) ∧
    ((recommend_by_song recW "a" "cosine").map List.length =
      .ok (min recW.n_recommendations recW.N)) ∧
    ((recommend_by_song recW "a" "euclidean").map List.length =
      .ok (min recW.n_recommendations recW.N)) ∧
    (recW.knn_n_neighbors ≤ recW.N →
      (recommend_by_song recW "a" "knn").map List.length =
        .ok (min recW.n_recommendations (recW.knn_n_neighbors - 1)))) := by
  have h1 : MOOD_FILTERS.lookup "happy" =
      some [⟨.valence, false, 0.6⟩, ⟨.energy, false, 0.5⟩] := by
    simp only [MOOD_FILTERS, ratSci]
    decide
  exact ⟨h1, by decide, by decide, by decide,
    claim_C3_amended recW dfW "a" 0 "happy" "slow" _ _ 5 h1 (by decide) (by decide)⟩

/-- C3 counterexample: with the neighbour index built with
`n_neighbors = 2` over a three-track catalog and `n_recommendations = 2`,
the knn method returns exactly 1 row, although 2 rows were requested and
2 qualifying (non-seed) rows exist — the claim's
"exactly min(n, qualifying)" (and its "k+1 neighbours for a requested
count of k") does not hold on the code. -/
theorem claim_C3_counterexample :
    (recommend_by_song recK2 "a" "knn").map List.length = .ok 1 ∧
    min recK2.n_recommendations (recK2.df.length - 1) = 2 := by
  constructor
  · rw [(recommend_by_song_shape recK2 "a" "knn").2,
      recommendIdx_knn_eq (show findSeedIdx recK2 "a" = some 0 from by decide)]
    unfold kneighborsIdx
    rw [if_pos (by decide)]
    simp only [Except.map]
    rw [List.length_take, List.length_drop, List.length_take, knnOrder_length]
    rfl
  · decide

/-! ## Order-faithfulness of the rational similarity surrogate

These lemmas certify that sorting by `simProxy` (with `sentinelProxy`
standing for the literal `-1` the code writes) is exactly sorting by the
real-valued cosine similarity the source computes, so the computable
argsort model above is a faithful embedding of the float argsort. -/

theorem strictMono_mul_abs : StrictMono (fun x : ℝ => x * |x|) := by
  intro a b hab
  simp only
  rcases le_or_lt 0 a with ha | ha
  · have hb : 0 < b := lt_of_le_of_lt ha hab
    rw [abs_of_nonneg ha, abs_of_pos hb]
    nlinarith
  · rcases le_or_lt 0 b with hb | hb
    · rw [abs_of_neg ha, abs_of_nonneg hb]
      nlinarith [abs_nonneg b, mul_nonneg hb hb]
    · rw [abs_of_neg ha, abs_of_neg hb]
      nlinarith

theorem simProxy_cast (u v : List ℚ) (hu : sqNorm u ≠ 0) :
    ((simProxy u v : ℚ) : ℝ) =
      ((sqNorm u : ℚ) : ℝ) * (cosSimR u v * |cosSimR u v|) := by
  by_cases hv : sqNorm v = 0
  · rw [simProxy, cosSimR, if_pos (Or.inr hv), if_pos (Or.inr hv)]
    simp
  · have hnu : (0 : ℝ) < ((sqNorm u : ℚ) : ℝ) := by
      have h1 : (0 : ℚ) < sqNorm u := lt_of_le_of_ne (sqNorm_nonneg u) (Ne.symm hu)
      exact_mod_cast h1
    have hnv : (0 : ℝ) < ((sqNorm v : ℚ) : ℝ) := by
      have h1 : (0 : ℚ) < sqNorm v := lt_of_le_of_ne (sqNorm_nonneg v) (Ne.symm hv)
      exact_mod_cast h1
    have hsup : 0 < normR u := Real.sqrt_pos.mpr hnu
    have hsvp : 0 < normR v := Real.sqrt_pos.mpr hnv
    have hsu : normR u ^ 2 = ((sqNorm u : ℚ) : ℝ) := Real.sq_sqrt hnu.le
    have hsv : normR v ^ 2 = ((sqNorm v : ℚ) : ℝ) := Real.sq_sqrt hnv.le
    rw [simProxy, cosSimR, if_neg (not_or.mpr ⟨hu, hv⟩), if_neg (not_or.mpr ⟨hu, hv⟩)]
    rw [abs_div, abs_of_pos (mul_pos hsup hsvp)]
    rcases lt_or_ge (dotProd u v) 0 with hD | hD
    · have hDR : ((dotProd u v : ℚ) : ℝ) < 0 := by exact_mod_cast hD
      rw [if_pos hD, abs_of_neg hDR]
      push_cast
      rw [← hsu, ← hsv]
      field_simp
      ring
    · have hDR : (0 : ℝ) ≤ ((dotProd u v : ℚ) : ℝ) := by exact_mod_cast hD
      rw [if_neg (not_lt.mpr hD), abs_of_nonneg hDR]
      push_cast
      rw [← hsu, ← hsv]
      field_simp
      ring

theorem simProxy_le_simProxy_iff (u v w : List ℚ) :
    simProxy u v ≤ simProxy u w ↔ cosSimR u v ≤ cosSimR u w := by
  by_cases hu : sqNorm u = 0
  · rw [show simProxy u v = 0 from by rw [simProxy, if_pos (Or.inl hu)],
      show simProxy u w = 0 from by rw [simProxy, if_pos (Or.inl hu)],
      show cosSimR u v = 0 from by rw [cosSimR, if_pos (Or.inl hu)],
      show cosSimR u w = 0 from by rw [cosSimR, if_pos (Or.inl hu)]]
    norm_num
  · have hnu : (0 : ℝ) < ((sqNorm u : ℚ) : ℝ) := by
      have h1 : (0 : ℚ) < sqNorm u := lt_of_le_of_ne (sqNorm_nonneg u) (Ne.symm hu)
      exact_mod_cast h1
    have hcast : (simProxy u v ≤ simProxy u w) ↔
        ((simProxy u v : ℚ) : ℝ) ≤ ((simProxy u w : ℚ) : ℝ) := by
      constructor <;> intro h <;> exact_mod_cast h
    rw [hcast, simProxy_cast u v hu, simProxy_cast u w hu, mul_le_mul_left hnu]
    exact strictMono_mul_abs.le_iff_le

theorem sentinelProxy_lt_simProxy_iff (u v : List ℚ) :
    sentinelProxy u < simProxy u v ↔ -1 < cosSimR u v := by
  by_cases hu : sqNorm u = 0
  · rw [show sentinelProxy u = -1 from by rw [sentinelProxy, if_pos hu],
      show simProxy u v = 0 from by rw [simProxy, if_pos (Or.inl hu)],
      show cosSimR u v = 0 from by rw [cosSimR, if_pos (Or.inl hu)]]
    norm_num
  · have hnu : (0 : ℝ) < ((sqNorm u : ℚ) : ℝ) := by
      have h1 : (0 : ℚ) < sqNorm u := lt_of_le_of_ne (sqNorm_nonneg u) (Ne.symm hu)
      exact_mod_cast h1
    have hsent : ((sentinelProxy u : ℚ) : ℝ) =
        ((sqNorm u : ℚ) : ℝ) * ((-1 : ℝ) * |(-1 : ℝ)|) := by
      rw [sentinelProxy, if_neg hu]
      push_cast
      rw [abs_of_neg (by norm_num : (-1 : ℝ) < 0)]
      ring
    have hcast : (sentinelProxy u < simProxy u v) ↔
        ((sentinelProxy u : ℚ) : ℝ) < ((simProxy u v : ℚ) : ℝ) := by
      constructor <;> intro h <;> exact_mod_cast h
    rw [hcast, hsent, simProxy_cast u v hu, mul_lt_mul_left hnu]
    exact strictMono_mul_abs.lt_iff_lt

end VibeMap
